import Mathlib

/-!
# b6max: packet codec, command exchange, message codecs and command line

A shallow embedding of `b6max.go` and of the commands of `cli/cmd`.  Bytes are
natural numbers below 256 and every byte operation of the source that can wrap
is written with an explicit `% 256`.  A Go run-time panic (index out of range) is the outer `none` of an
`Option`; a returned Go `error` is the `Except.error` case.
-/

namespace B6Max

/-! ## Errors -/

/-- The Go `error` values that the package can return. -/
inductive GoError where
  /-- `fmt.Errorf("checksum mismatch calc=%d want=%d", got, want)` -/
  | checksumMismatch (got want : Nat)
  /-- `errors.New("timeout in command")` -/
  | timeoutInCommand
  /-- `io.EOF`, from `binary.Read` on an empty reply -/
  | eof
  /-- `io.ErrUnexpectedEOF`, from `binary.Read` on a short reply -/
  | unexpectedEOF
  /-- `io.ErrShortWrite`, from `bytes.Buffer.WriteTo` -/
  | shortWrite
  /-- `fmt.Errorf("parse(): data length got=%d want=%d bytes", ...)` -/
  | dataLength (got want : Nat)
  /-- an error reported by the USB device on `Write` -/
  | transport (code : Nat)
  deriving DecidableEq, Repr

/-! ## Packet -/

/-- The Go `packet`: the unread bytes of the embedded `bytes.Buffer` and the
command byte. -/
structure packet where
  buf : List Nat
  command : Nat
  deriving DecidableEq, Repr

/-- The zero value `&packet{}`. -/
def packet.zero : packet := { buf := [], command := 0 }

/-- The method `init`: `p.Reset(); p.command = pType`. -/
def packet.init (_p : packet) (pType : Nat) : packet :=
  { buf := [], command := pType }

/-- The loop of `checksum`: `for i := byte(2); i < d[1]+1; i++ { sum += d[i] }`.
The bound `d[1]+1`, the counter `i` and the accumulator `sum` are bytes, so each
is reduced modulo 256.  An index outside `d` is a panic (`none`). -/
def checksumLoop (d : List Nat) (i sum : Nat) : Option Nat :=
  match d[1]? with
  | none => none
  | some d1 =>
    if i < (d1 + 1) % 256 then
      match d[i]? with
      | none => none
      | some x => checksumLoop d ((i + 1) % 256) ((sum + x) % 256)
    else some sum
termination_by 256 - i
decreasing_by omega

/-- The method `checksum`: `sum` starts at 0 and the loop starts at index 2. -/
def packet.checksum (p : packet) : Option Nat :=
  checksumLoop p.buf 2 0

/-- The method `setData`: reset, then write the start marker, the length byte
`byte(len(data) + 2)`, the command, the data, the checksum of what has been
written so far, and the terminator. -/
def packet.setData (p : packet) (data : List Nat) : Option packet :=
  let p1 : packet := { p with buf := [0x0f, (data.length + 2) % 256, p.command] ++ data }
  match p1.checksum with
  | none => none
  | some s => some { p1 with buf := p1.buf ++ [s] ++ [0xff, 0xff] }

/-- The condition `d[0] == 0xf0 && d[1] == 0xff && d[2] == 0xff` of `checksumOk`,
with the short-circuit evaluation of `&&`. -/
def isAck (d : List Nat) : Option Bool :=
  match d[0]? with
  | none => none
  | some d0 =>
    if d0 = 0xf0 then
      match d[1]? with
      | none => none
      | some d1 =>
        if d1 = 0xff then
          match d[2]? with
          | none => none
          | some d2 => some (decide (d2 = 0xff))
        else some false
    else some false

/-- The method `checksumOk`: an ack packet is accepted without a checksum;
otherwise `wantSum := d[d[1]+1]` (the index is a byte) is compared with
`p.checksum()`. -/
def packet.checksumOk (p : packet) : Option (Except GoError Unit) :=
  let d := p.buf
  match isAck d with
  | none => none
  | some true => some (.ok ())
  | some false =>
    match d[1]? with
    | none => none
    | some d1 =>
      match d[(d1 + 1) % 256]? with
      | none => none
      | some wantSum =>
        match p.checksum with
        | none => none
        | some got =>
          if got ≠ wantSum then some (.error (.checksumMismatch got wantSum))
          else some (.ok ())

/-- The frame built by `init(c)` followed by `setData(p)` on a fresh packet. -/
def frame (c : Nat) (p : List Nat) : Option packet :=
  (packet.zero.init c).setData p

/-- Every element of a byte slice is a byte. -/
def isBytes (l : List Nat) : Prop := ∀ x ∈ l, x < 256

instance (l : List Nat) : Decidable (isBytes l) := by
  unfold isBytes; infer_instance

/-! ## Big-endian fixed-layout encoding (`encoding/binary`) -/

/-- The two bytes `byte(v >> 8), byte(v)` that `binary.BigEndian` writes for a
`uint16`. -/
def putUint16 (v : Nat) : List Nat := [v / 256 % 256, v % 256]

/-- The byte at offset `n` of the bytes read by `binary.Read`. -/
def getUint8 (d : List Nat) (n : Nat) : Nat := d.getD n 0

/-- The big-endian `uint16` at offset `n` of the bytes read by `binary.Read`. -/
def getUint16 (d : List Nat) (n : Nat) : Nat := d.getD n 0 * 256 + d.getD (n + 1) 0

/-- The call `io.ReadFull` made by `binary.Read` on a `bytes.Buffer` holding `data`,
for a value of `size > 0` bytes: `io.EOF` when nothing can be read,
`io.ErrUnexpectedEOF` when fewer than `size` bytes can, else the first `size`
bytes. -/
def readFull (data : List Nat) (size : Nat) : Except GoError (List Nat) :=
  if data.length = 0 then .error .eof
  else if data.length < size then .error .unexpectedEOF
  else .ok (data.take size)

/-! ## Constants -/

/-- The constant `replyLength`. -/
def replyLength : Nat := 64

/-- The constant `sendAttempts`. -/
def sendAttempts : Nat := 3

/-- The type `BatteryType` is a `uint8`. -/
abbrev BatteryType := Nat

/-- The constant `LiPo`. -/
abbrev LiPo : BatteryType := 0
/-- The constant `LiIo`. -/
abbrev LiIo : BatteryType := 1
/-- The constant `LiFe`. -/
abbrev LiFe : BatteryType := 2
/-- The constant `NiMh`. -/
abbrev NiMh : BatteryType := 3
/-- The constant `NiCd`. -/
abbrev NiCd : BatteryType := 4
/-- The constant `Pb`. -/
abbrev Pb : BatteryType := 5

/-- The type `ProgramType` is a `uint8`. -/
abbrev ProgramType := Nat

/-- The constant `Charge`. -/
abbrev Charge : ProgramType := 0
/-- The constant `Discharge`. -/
abbrev Discharge : ProgramType := 1
/-- The constant `Storage`. -/
abbrev Storage : ProgramType := 2
/-- The constant `FastCharge`. -/
abbrev FastCharge : ProgramType := 3
/-- The constant `Balance`. -/
abbrev Balance : ProgramType := 4
/-- The constant `AutoCharge`. -/
abbrev AutoCharge : ProgramType := 5
/-- The constant `RePeak`. -/
abbrev RePeak : ProgramType := 6
/-- The constant `Cycle`. -/
abbrev Cycle : ProgramType := 7

/-- The map literal `programTypeMap`, as an association list per battery type. -/
def programTypeMap : List (BatteryType × List (ProgramType × Nat)) :=
  [ (LiPo, [(Charge, 0), (Discharge, 1), (Storage, 2), (FastCharge, 3), (Balance, 4)]),
    (LiIo, [(Charge, 0), (Discharge, 1), (Storage, 2), (FastCharge, 3), (Balance, 4)]),
    (LiFe, [(Charge, 0), (Discharge, 1), (Storage, 2), (FastCharge, 3), (Balance, 4)]),
    (NiMh, [(Charge, 0), (AutoCharge, 1), (Discharge, 2), (RePeak, 3), (Cycle, 4)]),
    (NiCd, [(Charge, 0), (AutoCharge, 1), (Discharge, 2), (RePeak, 3), (Cycle, 4)]),
    (Pb, [(Charge, 0), (Discharge, 1)]) ]

/-- The entry of `programTypeMap` for a pair, `none` when the battery type or the
program type is not a key. -/
def programTypeEntry (b : BatteryType) (t : ProgramType) : Option Nat :=
  match programTypeMap.lookup b with
  | none => none
  | some inner => inner.lookup t

/-- The Go expression `programTypeMap[b][t]`: indexing a map (also a nil inner
map) with a missing key yields the zero value. -/
def programTypeIndex (b : BatteryType) (t : ProgramType) : Nat :=
  (programTypeEntry b t).getD 0

/-! ## ProgramStart and ProgramStop -/

/-- The struct `ProgramStart` (the blank pad field carries no value). -/
structure ProgramStart where
  BatteryType : Nat
  Cells : Nat
  PwmMode : Nat
  ChargeCurrent : Nat
  DischargeCurrent : Nat
  DischargeCutoff : Nat
  ChargeCutoff : Nat
  RePeakCycleInfo : Nat
  CycleCount : Nat
  Trickle : Nat
  deriving DecidableEq, Repr

/-- The ranges of the Go field types of `ProgramStart`. -/
def ProgramStart.inRange (p : ProgramStart) : Prop :=
  p.BatteryType < 256 ∧ p.Cells < 256 ∧ p.PwmMode < 256 ∧
  p.ChargeCurrent < 65536 ∧ p.DischargeCurrent < 65536 ∧
  p.DischargeCutoff < 65536 ∧ p.ChargeCutoff < 65536 ∧
  p.RePeakCycleInfo < 256 ∧ p.CycleCount < 256 ∧ p.Trickle < 65536

instance (p : ProgramStart) : Decidable p.inRange := by
  unfold ProgramStart.inRange; infer_instance

/-- The bytes `binary.Write(buf, binary.BigEndian, &p)` produces for a
`ProgramStart`: the blank pad field is written as zero, then each field in
declaration order. -/
def ProgramStart.binaryWrite (p : ProgramStart) : List Nat :=
  [0x00, p.BatteryType % 256, p.Cells % 256, p.PwmMode % 256] ++
  putUint16 p.ChargeCurrent ++ putUint16 p.DischargeCurrent ++
  putUint16 p.DischargeCutoff ++ putUint16 p.ChargeCutoff ++
  [p.RePeakCycleInfo % 256, p.CycleCount % 256] ++ putUint16 p.Trickle

/-- The method `writeData`, at its only use (a `*ProgramStart`). -/
def packet.writeData (p : packet) (data : ProgramStart) : Option packet :=
  p.setData data.binaryWrite

/-- The method `ProgramStart.encode`: the copy `p1` gets the device code
`programTypeMap[p.BatteryType][p.PwmMode]` as its program type and is
serialized into a packet of command `0x05`. -/
def ProgramStart.encode (p : ProgramStart) : Option packet :=
  let p1 : ProgramStart := { p with PwmMode := programTypeIndex p.BatteryType p.PwmMode }
  let pk := packet.zero.init 0x05
  pk.writeData p1

/-- The method `ProgramStart.parse`. -/
def ProgramStart.parse (_p : ProgramStart) (data : List Nat) : Except GoError Unit :=
  if data.length ≠ replyLength then .error (.dataLength data.length replyLength)
  else .ok ()

/-- The struct `ProgramStop` has no fields. -/
structure ProgramStop where
  deriving DecidableEq, Repr

/-- The method `ProgramStop.parse`. -/
def ProgramStop.parse (_p : ProgramStop) (data : List Nat) : Except GoError Unit :=
  if data.length ≠ replyLength then .error (.dataLength data.length replyLength)
  else .ok ()

/-- The method `ProgramStop.encode`. -/
def ProgramStop.encode (_p : ProgramStop) : Option packet :=
  (packet.zero.init 0xfe).setData [0x0]

/-! ## SysInfo, DevInfo, ProgramState -/

/-- The struct `SysInfo` (the four blank header fields carry no value). -/
structure SysInfo where
  CycleTime : Nat
  TimeLimitOn : Nat
  TimeLimit : Nat
  CapLimitOn : Nat
  CapLimit : Nat
  KeyBuzz : Nat
  SysBuzz : Nat
  InDCLowLimit : Nat
  TemperatureLimit : Nat
  Millivolts : Nat
  Cells : List Nat
  deriving DecidableEq, Repr

/-- The zero value `&SysInfo{}`. -/
def SysInfo.zero : SysInfo :=
  ⟨0, 0, 0, 0, 0, 0, 0, 0, 0, 0, [0, 0, 0, 0, 0, 0]⟩

/-- The size `binary.Read` computes for `SysInfo`: 4 skipped header bytes and
26 bytes of fields. -/
def SysInfo.size : Nat := 30

/-- The method `SysInfo.parse`: `binary.Read` of the big-endian struct; the
receiver is overwritten only when all `size` bytes could be read. -/
def SysInfo.parse (_s : SysInfo) (data : List Nat) : Except GoError SysInfo :=
  match readFull data SysInfo.size with
  | .error e => .error e
  | .ok d => .ok
    { CycleTime := getUint8 d 4
      TimeLimitOn := getUint8 d 5
      TimeLimit := getUint16 d 6
      CapLimitOn := getUint8 d 8
      CapLimit := getUint16 d 9
      KeyBuzz := getUint8 d 11
      SysBuzz := getUint8 d 12
      InDCLowLimit := getUint16 d 13
      TemperatureLimit := getUint8 d 15
      Millivolts := getUint16 d 16
      Cells := (List.range 6).map fun i => getUint16 d (18 + 2 * i) }

/-- The method `SysInfo.encode`. -/
def SysInfo.encode (_s : SysInfo) : Option packet :=
  (packet.zero.init 0x5a).setData [0x0]

/-- The struct `DevInfo` (the four blank header fields carry no value). -/
structure DevInfo where
  CoreType : List Nat
  UpgradeType : Nat
  IsEncrypt : Nat
  CustomerID : Nat
  LanguageID : Nat
  SwVersion : Nat
  HwVersion : Nat
  deriving DecidableEq, Repr

/-- The zero value `&DevInfo{}`. -/
def DevInfo.zero : DevInfo := ⟨[0, 0, 0, 0, 0, 0], 0, 0, 0, 0, 0, 0⟩

/-- The size `binary.Read` computes for `DevInfo`: 4 skipped header bytes and
14 bytes of fields. -/
def DevInfo.size : Nat := 18

/-- The method `DevInfo.parse`. -/
def DevInfo.parse (_d : DevInfo) (data : List Nat) : Except GoError DevInfo :=
  match readFull data DevInfo.size with
  | .error e => .error e
  | .ok d => .ok
    { CoreType := (List.range 6).map fun i => getUint8 d (4 + i)
      UpgradeType := getUint8 d 10
      IsEncrypt := getUint8 d 11
      CustomerID := getUint16 d 12
      LanguageID := getUint8 d 14
      SwVersion := getUint16 d 15
      HwVersion := getUint8 d 17 }

/-- The method `DevInfo.encode`. -/
def DevInfo.encode (_d : DevInfo) : Option packet :=
  (packet.zero.init 0x57).setData [0x0]

/-- The struct `ProgramState` (the four blank header fields carry no value). -/
structure ProgramState where
  WorkState : Nat
  ErrorCodeMah : Nat
  Time : Nat
  MilliVolt : Nat
  MilliAmp : Nat
  TemperatureExternal : Nat
  TemperatureInternal : Nat
  Impedance : Nat
  Cells : List Nat
  deriving DecidableEq, Repr

/-- The zero value `&ProgramState{}`. -/
def ProgramState.zero : ProgramState := ⟨0, 0, 0, 0, 0, 0, 0, 0, [0, 0, 0, 0, 0, 0]⟩

/-- The size `binary.Read` computes for `ProgramState`: 4 skipped header bytes
and 25 bytes of fields. -/
def ProgramState.size : Nat := 29

/-- The method `ProgramState.parse`. -/
def ProgramState.parse (_p : ProgramState) (data : List Nat) : Except GoError ProgramState :=
  match readFull data ProgramState.size with
  | .error e => .error e
  | .ok d => .ok
    { WorkState := getUint8 d 4
      ErrorCodeMah := getUint16 d 5
      Time := getUint16 d 7
      MilliVolt := getUint16 d 9
      MilliAmp := getUint16 d 11
      TemperatureExternal := getUint8 d 13
      TemperatureInternal := getUint8 d 14
      Impedance := getUint16 d 15
      Cells := (List.range 6).map fun i => getUint16 d (17 + 2 * i) }

/-- The method `ProgramState.encode`. -/
def ProgramState.encode (_p : ProgramState) : Option packet :=
  (packet.zero.init 0x55).setData [0x0]

/-! ## Command exchange -/

/-- What the USB device and the scheduler do during one pass of the send loop
of `writeCommand`. -/
structure Attempt where
  /-- the result `(m, e)` of `UsbDevice.Write` on the bytes it is given -/
  write : List Nat → Nat × Option GoError
  /-- the outcome of the `select`: `some data` when the read goroutine delivers
  `data` on `rCh` before the second elapses, `none` when `time.After` fires -/
  reply : Option (List Nat)

/-- The observable steps of `writeCommand`. -/
inductive Event where
  /-- the call `cmd.WriteTo(b.UsbDevice)`; `handed` is what `UsbDevice.Write`
  received, `none` when `WriteTo` did not call it -/
  | writeTo (handed : Option (List Nat))
  /-- the `select` between `rCh` and `time.After(time.Second)` -/
  | wait
  deriving DecidableEq, Repr

/-- The state after `bytes.Buffer.WriteTo`. -/
structure WriteToResult where
  /-- the unread bytes left in the buffer -/
  buf : List Nat
  /-- the bytes passed to the writer, if it was called -/
  handed : Option (List Nat)
  /-- the returned error -/
  err : Option GoError
  deriving DecidableEq, Repr

/-- The method `bytes.Buffer.WriteTo`: a non-empty buffer is passed to the writer
once and the `m` accepted bytes are consumed; a count above the length is a
panic, a writer error is returned, a short count is `io.ErrShortWrite`;
otherwise (also when the buffer was empty, without calling the writer) the
buffer is reset and `nil` returned. -/
def bufferWriteTo (buf : List Nat) (w : List Nat → Nat × Option GoError) :
    Option WriteToResult :=
  if 0 < buf.length then
    let r := w buf
    if r.1 > buf.length then none
    else
      match r.2 with
      | some e => some ⟨buf.drop r.1, some buf, some e⟩
      | none =>
        if r.1 ≠ buf.length then some ⟨buf.drop r.1, some buf, some .shortWrite⟩
        else some ⟨[], some buf, none⟩
  else some ⟨[], none, none⟩

/-- The loop `for attempts := 0; attempts < sendAttempts; attempts++` of
`writeCommand`.  The first argument is `sendAttempts - attempts`, the number of
passes left; `buf` is the buffer of `cmd` and `tr` the steps made so far.  When
`WriteTo` panics (the device reports more bytes than it was given) the buffer
was not empty and had been handed to the device before. -/
def writeCommandLoop (env : Nat → Attempt) :
    Nat → Nat → List Nat → List Event → Option (Except GoError (List Nat)) × List Event
  | 0, _, _, tr => (some (.error .timeoutInCommand), tr)
  | left + 1, attempts, buf, tr =>
    match bufferWriteTo buf (env attempts).write with
    | none => (none, tr ++ [.writeTo (some buf)])
    | some r =>
      match r.err with
      | some e => (some (.error e), tr ++ [.writeTo r.handed])
      | none =>
        match (env attempts).reply with
        | some data => (some (.ok data), tr ++ [.writeTo r.handed, .wait])
        | none =>
          writeCommandLoop env left (attempts + 1) r.buf (tr ++ [.writeTo r.handed, .wait])

/-- The method `writeCommand`: its result and the steps it made, up to its
return.  The read goroutine is present only through the outcome of each
`select`; what it does after `writeCommand` has returned and the deferred
`close(rCh)` has run is not part of this function. -/
def writeCommand (env : Nat → Attempt) (cmd : packet) :
    Option (Except GoError (List Nat)) × List Event :=
  writeCommandLoop env sendAttempts 0 cmd.buf []

/-! ## Device session -/

/-- The method `ReadSysInfo`. -/
def ReadSysInfo (env : Nat → Attempt) : Option (Except GoError SysInfo) :=
  let si := SysInfo.zero
  match si.encode with
  | none => none
  | some cmd =>
    match (writeCommand env cmd).1 with
    | none => none
    | some (.error e) => some (.error e)
    | some (.ok resp) =>
      match si.parse resp with
      | .error e => some (.error e)
      | .ok si1 => some (.ok si1)

/-- The method `ReadDevInfo`. -/
def ReadDevInfo (env : Nat → Attempt) : Option (Except GoError DevInfo) :=
  let di := DevInfo.zero
  match di.encode with
  | none => none
  | some cmd =>
    match (writeCommand env cmd).1 with
    | none => none
    | some (.error e) => some (.error e)
    | some (.ok resp) =>
      match di.parse resp with
      | .error e => some (.error e)
      | .ok di1 => some (.ok di1)

/-- The method `ReadProgramState`. -/
def ReadProgramState (env : Nat → Attempt) : Option (Except GoError ProgramState) :=
  let ps := ProgramState.zero
  match ps.encode with
  | none => none
  | some cmd =>
    match (writeCommand env cmd).1 with
    | none => none
    | some (.error e) => some (.error e)
    | some (.ok resp) =>
      match ps.parse resp with
      | .error e => some (.error e)
      | .ok ps1 => some (.ok ps1)

/-- The method `Stop`. -/
def Stop (env : Nat → Attempt) : Option (Except GoError ProgramStop) :=
  let ps : ProgramStop := {}
  match ps.encode with
  | none => none
  | some cmd =>
    match (writeCommand env cmd).1 with
    | none => none
    | some (.error e) => some (.error e)
    | some (.ok resp) =>
      match ps.parse resp with
      | .error e => some (.error e)
      | .ok _ => some (.ok ps)

/-- The method `Start`. -/
def Start (env : Nat → Attempt) (p : ProgramStart) : Option (Except GoError Unit) :=
  match p.encode with
  | none => none
  | some cmd =>
    match (writeCommand env cmd).1 with
    | none => none
    | some (.error e) => some (.error e)
    | some (.ok resp) => some (p.parse resp)


/-! ## Devices used to run the exchange -/

/-- The steps of a run of complete passes of the send loop of `writeCommand`: each
pass is a call of `cmd.WriteTo` followed by a wait. -/
def attemptsTrace : List (Option (List Nat)) → List Event
  | [] => []
  | h :: t => .writeTo h :: .wait :: attemptsTrace t

/-- The number of calls of `UsbDevice.Write` among the steps of `writeCommand`:
the calls of `WriteTo` that handed bytes to the device. -/
def deviceWrites : List Event → Nat
  | [] => 0
  | .writeTo (some _) :: t => deviceWrites t + 1
  | _ :: t => deviceWrites t

/-- A USB write that accepts every byte: it returns `(len(b), nil)`. -/
def acceptAll (bs : List Nat) : Nat × Option GoError := (bs.length, none)

/-- A device that accepts every write and never replies. -/
def neverReplies : Nat → Attempt := fun _ => ⟨acceptAll, none⟩

/-- A device that accepts every write and whose reply `r` arrives during the wait
of pass `k` (counted from 0). -/
def repliesAt (k : Nat) (r : List Nat) : Nat → Attempt :=
  fun j => ⟨acceptAll, if j = k then some r else none⟩

/-- A 64-byte reply laid out as a frame of command `0x5a` with a one-byte payload,
whose stored checksum byte is `0x07` while the command and payload sum to `0x5a`. -/
def badChecksumReply : List Nat := [0x0f, 0x03, 0x5a] ++ [0x00] ++ 0x07 :: List.replicate 59 0

/-! ## The receiver of ProgramStart.encode -/

/-- The memory cells that hold `ProgramStart` structs: the address `a` is
allocated when `a < cells.length` and then holds `cells[a]`. -/
structure Heap where
  cells : List ProgramStart
  deriving DecidableEq, Repr

/-- The read `*a` of a pointer to a `ProgramStart`; `none` for a nil or dangling
pointer (a panic). -/
def Heap.load (h : Heap) (a : Nat) : Option ProgramStart := h.cells[a]?

/-- The write `*a = v` through a pointer to a `ProgramStart`. -/
def Heap.store (h : Heap) (a : Nat) (v : ProgramStart) : Heap :=
  { cells := h.cells.set a v }

/-- The allocation of a new struct variable initialised with `v`: the new cell is
the first address that is not allocated yet. -/
def Heap.alloc (h : Heap) (v : ProgramStart) : Heap × Nat :=
  ({ cells := h.cells ++ [v] }, h.cells.length)

/-- The method `ProgramStart.encode` on memory, its receiver being the pointer
`p`; it returns the memory after the call and the packet.
* `p1 := *p` reads the struct behind `p` and allocates the variable `p1` (its
  address is taken below) with that value;
* `p1.PwmMode = ProgramType(programTypeMap[p.BatteryType][p.PwmMode])` reads the two
  fields through `p` and writes the field of the cell of `p1`;
* `pk.writeData(&p1)` reads the struct behind `&p1` and serializes it. -/
def ProgramStart.encodeOn (h : Heap) (p : Nat) : Option (Heap × packet) :=
  match h.load p with
  | none => none
  | some v =>
    let r := h.alloc v
    let h1 := r.1
    let p1 := r.2
    match h1.load p, h1.load p1 with
    | some vp, some v1 =>
      let h2 := h1.store p1
        { v1 with PwmMode := programTypeIndex vp.BatteryType vp.PwmMode }
      let pk := packet.zero.init 0x05
      match h2.load p1 with
      | none => none
      | some w =>
        match pk.writeData w with
        | none => none
        | some pk1 => some (h2, pk1)
    | _, _ => none

/-! ## Command line (package cmd) -/

/-- The conversion `uint16(v)` of a Go `int`. -/
def toUint16 (v : Int) : Nat := (v % 65536).toNat

/-- The conversion `byte(v)` of a Go `int`. -/
def toByte (v : Int) : Nat := (v % 256).toNat

/-- Lower-casing of the ASCII letters of a string.  The function
`strings.ToLower` agrees with it on ASCII strings only (it also maps letters
outside ASCII, such as U+0130 to `i`); the commands take their lower-casing
from `CliEnv.toLower`, and this one is used on ASCII input. -/
def asciiLower (s : String) : String := ⟨s.data.map Char.toLower⟩

/-- The observable steps of the `Run` function of a command. -/
inductive CliStep where
  /-- a call of `fmt.Print` or `fmt.Printf` with the resulting text -/
  | print (msg : String)
  /-- the call `open(cmd)` -/
  | openDevice
  /-- the call `dev.Start(p)` -/
  | start (p : ProgramStart)
  /-- the deferred call `dev.Close()` -/
  | closeDevice
  /-- the call `d.Open(logFile)` -/
  | openDatabase
  /-- the call `d.writeProgram(p, tags)` -/
  | writeProgram (p : ProgramStart) (tags : List String)
  /-- the call `doWatch(cmd, dev, d)` -/
  | watch
  /-- the deferred call `d.Close()` -/
  | closeDatabase
  deriving DecidableEq, Repr

/-- How the `Run` function of a command ends. -/
inductive CliEnd where
  /-- the function returns -/
  | returned
  /-- the run-time panic of a method call on a nil `error` -/
  | nilDereference
  deriving DecidableEq, Repr

/-- What the collaborators of a command do: the lower-casing of `strings.ToLower`
and the error (if any) returned by `open`, `dev.Start`, `d.Open`,
`d.writeProgram` and `doWatch`. -/
structure CliEnv where
  toLower : String → String
  openErr : Option String
  startErr : ProgramStart → Option String
  dbOpenErr : Option String
  writeProgramErr : Option String
  watchErr : Option String

/-- Collaborators that all succeed, on ASCII input. -/
def cliEnvOk : CliEnv :=
  { toLower := asciiLower, openErr := none, startErr := fun _ => none, dbOpenErr := none,
    writeProgramErr := none, watchErr := none }

/-- The function `batteryType` of `root.go`, given the result of
`cmd.Flags().GetString("battery")`. -/
def batteryType (toLower : String → String) (flag : Except String String) :
    Except String BatteryType :=
  match flag with
  | .error _ => .ok 0
  | .ok flagBattery =>
    let bt := toLower flagBattery
    if bt = "liio" then .ok LiIo
    else if bt = "lipo" then .ok LiPo
    else if bt = "life" then .ok LiFe
    else if bt = "nimh" then .ok NiMh
    else if bt = "nicd" then .ok NiCd
    else if bt = "pb" then .ok Pb
    else .error ("Unknown battery type: \x27" ++ bt ++ "\x27\n")

/-- The results of the flag reads of the discharge command. -/
structure DischargeFlags where
  battery : Except String String
  current : Except String Int
  voltage : Except String Int
  cells : Except String Int
  tags : Except String (List String)

/-- The `switch` on the lower-cased battery name in the discharge command: the
battery type is stored in `p`; the default case only prints. -/
def dischargeBattery (bt : String) (p : ProgramStart) : ProgramStart × List CliStep :=
  if bt = "liio" then ({ p with BatteryType := LiIo }, [])
  else if bt = "lipo" then ({ p with BatteryType := LiPo }, [])
  else if bt = "life" then ({ p with BatteryType := LiFe }, [])
  else if bt = "nimh" then ({ p with BatteryType := NiMh }, [])
  else if bt = "nicd" then ({ p with BatteryType := NiCd }, [])
  else if bt = "pb" then ({ p with BatteryType := Pb }, [])
  else (p, [.print ("Unknown battery type: \x27" ++ bt ++ "\x27\n")])

/-- The part of a `Run` function from `open(cmd)` on, which the discharge and the
cycle command share up to the text `msg` printed before `dev.Start(p)`; `pre`
holds the steps made before. -/
def runProgram (env : CliEnv) (msg : String) (p : ProgramStart) (tags : List String)
    (pre : List CliStep) : List CliStep × CliEnd :=
  match env.openErr with
  | some e => (pre ++ [.openDevice, .print ("Error opening device: " ++ e ++ "\n")], .returned)
  | none =>
    match env.startErr p with
    | some e =>
      (pre ++ [.openDevice, .print msg, .start p, .print e, .closeDevice], .returned)
    | none =>
      match env.dbOpenErr with
      | some e =>
        (pre ++ [.openDevice, .print msg, .start p, .print "ok.\n", .openDatabase, .print e,
          .closeDevice], .returned)
      | none =>
        match env.writeProgramErr with
        | some e =>
          (pre ++ [.openDevice, .print msg, .start p, .print "ok.\n", .openDatabase,
            .writeProgram p tags, .print e, .closeDatabase, .closeDevice], .returned)
        | none =>
          match env.watchErr with
          | some e =>
            (pre ++ [.openDevice, .print msg, .start p, .print "ok.\n", .openDatabase,
              .writeProgram p tags, .watch, .print e, .closeDatabase, .closeDevice], .returned)
          | none =>
            (pre ++ [.openDevice, .print msg, .start p, .print "ok.\n", .openDatabase,
              .writeProgram p tags, .watch, .closeDatabase, .closeDevice], .returned)

/-- The function `dischargeCmd.Run`. -/
def dischargeRun (env : CliEnv) (f : DischargeFlags) : List CliStep × CliEnd :=
  match f.battery with
  | .error e => ([.print e], .returned)
  | .ok flagBattery =>
    match f.current with
    | .error e => ([.print e], .returned)
    | .ok flagCurrent =>
      if flagCurrent < 100 ∨ flagCurrent > 2000 then
        ([.print "current value must be between 100 and 2000 (mA)\n"], .returned)
      else
        match f.voltage with
        | .error e => ([.print e], .returned)
        | .ok flagVoltage =>
          match f.cells with
          | .error e => ([.print e], .returned)
          | .ok flagCells =>
            if flagCells < 1 ∨ flagCells > 6 then
              ([.print "current value must be between 1 and 6\n"], .returned)
            else
              match f.tags with
              | .error e => ([.print e], .returned)
              | .ok flagTags =>
                let p : ProgramStart :=
                  { BatteryType := 0, Cells := toByte flagCells, PwmMode := Discharge,
                    ChargeCurrent := 0, DischargeCurrent := toUint16 flagCurrent,
                    DischargeCutoff := toUint16 flagVoltage, ChargeCutoff := 0,
                    RePeakCycleInfo := 0, CycleCount := 0, Trickle := 0 }
                let r := dischargeBattery (env.toLower flagBattery) p
                runProgram env "Starting discharge cycle.." r.1 flagTags r.2

/-- The results of the flag reads of the cycle command. -/
structure CycleFlags where
  battery : Except String String
  cycles : Except String Int
  current : Except String Int
  voltage : Except String Int
  dcurrent : Except String Int
  dvoltage : Except String Int

/-- The `switch` of the cycle command that sets `checkError`: the first case
whose condition holds. -/
def cycleCheck (flagCurrent flagDCurrent flagDVoltage flagCycles : Int) : Option String :=
  if flagCurrent < 100 ∨ flagCurrent > 6000 then
    some "\x27current\x27 flag must be >=100 and <= 6000"
  else if flagDCurrent < 100 ∨ flagDCurrent > 2000 then
    some "\x27dcurrent\x27 flag must be >=100 and <= 2000"
  else if flagDVoltage < 800 then some "\x27dvoltage\x27 flag must be >=800"
  else if flagCycles < 1 ∨ flagCycles > 3 then some "\x27cycles\x27 flag must be between 1 and 3"
  else none

/-- The function `cycleCmd.Run`.  After the last flag read has succeeded the
variable `err` is nil; the statement under `if checkError != nil` is
`fmt.Print(err.Error())`, a method call on that `err`. -/
def cycleRun (env : CliEnv) (f : CycleFlags) : List CliStep × CliEnd :=
  match f.battery with
  | .error e => ([.print e], .returned)
  | .ok flagBattery =>
    let bt := env.toLower flagBattery
    match (if bt = "nimh" then some NiMh else if bt = "nicd" then some NiCd else none) with
    | none =>
      ([.print ("Unsupported battery type for cycle \x27" ++ bt ++
        "\x27, only NiMh and NiCd\n")], .returned)
    | some bType =>
      match f.cycles with
      | .error e => ([.print e], .returned)
      | .ok flagCycles =>
        match f.current with
        | .error e => ([.print e], .returned)
        | .ok flagCurrent =>
          match f.voltage with
          | .error e => ([.print e], .returned)
          | .ok flagVoltage =>
            match f.dcurrent with
            | .error e => ([.print e], .returned)
            | .ok flagDCurrent =>
              match f.dvoltage with
              | .error e => ([.print e], .returned)
              | .ok flagDVoltage =>
                let err : Option String := none
                match cycleCheck flagCurrent flagDCurrent flagDVoltage flagCycles with
                | some _ =>
                  match err with
                  | none => ([], .nilDereference)
                  | some e => ([.print e], .returned)
                | none =>
                  let p : ProgramStart :=
                    { BatteryType := bType, Cells := 1, PwmMode := Cycle,
                      ChargeCurrent := toUint16 flagCurrent,
                      DischargeCurrent := toUint16 flagDCurrent,
                      DischargeCutoff := toUint16 flagDVoltage,
                      ChargeCutoff := toUint16 flagVoltage, RePeakCycleInfo := 2,
                      CycleCount := toByte flagCycles, Trickle := 0 }
                  runProgram env "Starting charge cycle.." p [] []

/-! ## The checksum loop -/

/-- The loop returns its accumulator once the counter has reached the bound. -/
theorem checksumLoop_done (d : List Nat) (d1 i s : Nat) (h1 : d[1]? = some d1)
    (hi : ¬ i < (d1 + 1) % 256) : checksumLoop d i s = some s := by
  rw [checksumLoop]
  simp [h1, hi]

/-- One pass of the loop at an index inside the buffer. -/
theorem checksumLoop_step (d : List Nat) (d1 i s x : Nat) (h1 : d[1]? = some d1)
    (hi : i < (d1 + 1) % 256) (hx : d[i]? = some x) :
    checksumLoop d i s = checksumLoop d (i + 1) ((s + x) % 256) := by
  rw [checksumLoop]
  have hw : (i + 1) % 256 = i + 1 := by omega
  simp [h1, hi, hx, hw]

/-- The loop reads an index outside the buffer: the run panics. -/
theorem checksumLoop_panic (d : List Nat) (d1 i s : Nat) (h1 : d[1]? = some d1)
    (hi : i < (d1 + 1) % 256) (hx : d.length ≤ i) : checksumLoop d i s = none := by
  rw [checksumLoop]
  have hn : d[i]? = none := List.getElem?_eq_none hx
  simp [h1, hi, hn]

/-- When the bound `d[1]+1` lies inside the buffer, the loop started at `i` adds
the bytes at the indices `i .. d[1]` to the accumulator, modulo 256. -/
theorem checksumLoop_sum (d : List Nat) (d1 : Nat) (h1 : d[1]? = some d1)
    (hb : (d1 + 1) % 256 ≤ d.length) :
    ∀ (n i s : Nat), (d1 + 1) % 256 - i = n → s < 256 →
      checksumLoop d i s = some ((s + ((d.drop i).take n).sum) % 256) := by
  intro n
  induction n with
  | zero =>
    intro i s hn hs
    rw [checksumLoop_done d d1 i s h1 (by omega)]
    simp [Nat.mod_eq_of_lt hs]
  | succ n ih =>
    intro i s hn hs
    have hi : i < (d1 + 1) % 256 := by omega
    have hil : i < d.length := by omega
    have hx : d[i]? = some d[i] := List.getElem?_eq_getElem hil
    rw [checksumLoop_step d d1 i s d[i] h1 hi hx]
    rw [ih (i + 1) ((s + d[i]) % 256) (by omega) (Nat.mod_lt _ (by decide))]
    rw [List.drop_eq_getElem_cons hil, List.take_succ_cons, List.sum_cons]
    congr 1
    omega


/-! ## Frames built by `setData` -/

/-- The method `setData` never panics: it returns the start marker, the length
byte, the command, the data, a checksum byte and the terminator.  The checksum
byte is the sum, modulo 256, of the bytes the loop covers. -/
theorem setData_eq (p : packet) (data : List Nat) :
    p.setData data = some
      { buf := [0x0f, (data.length + 2) % 256, p.command] ++ data ++
          [((p.command :: data).take (((data.length + 2) % 256 + 1) % 256 - 2)).sum % 256] ++
          [0xff, 0xff],
        command := p.command } := by
  unfold packet.setData packet.checksum
  have h1 : ([0x0f, (data.length + 2) % 256, p.command] ++ data)[1]? =
      some ((data.length + 2) % 256) := by simp
  have hb : ((data.length + 2) % 256 + 1) % 256 ≤
      ([0x0f, (data.length + 2) % 256, p.command] ++ data).length := by
    simp only [List.length_append, List.length_cons, List.length_nil]
    omega
  simp only []
  rw [checksumLoop_sum _ _ h1 hb _ 2 0 rfl (by decide)]
  simp

/-- The frame of a payload of at most 252 bytes carries the checksum
`(c + sum p) mod 256`. -/
theorem frame_eq_of_le_252 (c : Nat) (p : List Nat) (hp : p.length ≤ 252) :
    frame c p = some
      { buf := [0x0f, p.length + 2, c] ++ p ++ [(c + p.sum) % 256, 0xff, 0xff],
        command := c } := by
  unfold frame
  rw [setData_eq]
  have hL : (p.length + 2) % 256 = p.length + 2 := by omega
  have hn : (p.length + 2 + 1) % 256 - 2 = p.length + 1 := by omega
  simp [packet.init, hL, hn]

/-- The frame of a payload of exactly 253 bytes: the bound `d[1]+1` of the
checksum loop wraps to 0, so the checksum byte is 0. -/
theorem frame_eq_of_eq_253 (c : Nat) (p : List Nat) (hp : p.length = 253) :
    frame c p = some
      { buf := [0x0f, 0xff, c] ++ p ++ [0, 0xff, 0xff], command := c } := by
  unfold frame
  rw [setData_eq]
  simp [packet.init, hp]


/-! ## Validation of frames -/

/-- The method `checksum` on a buffer laid out as a frame whose length byte is
`len(q) + 2 ≤ 254`, whatever follows the payload: the sum of the command and
the payload, modulo 256. -/
theorem checksum_layout (c cmd k : Nat) (q tail : List Nat) (hq : q.length ≤ 252) :
    packet.checksum { buf := [0x0f, q.length + 2, c] ++ q ++ k :: tail, command := cmd } =
      some ((c + q.sum) % 256) := by
  unfold packet.checksum
  have h1 : ([0x0f, q.length + 2, c] ++ q ++ k :: tail)[1]? = some (q.length + 2) := by
    simp
  have hb : (q.length + 2 + 1) % 256 ≤ ([0x0f, q.length + 2, c] ++ q ++ k :: tail).length := by
    simp only [List.length_append, List.length_cons, List.length_nil]
    omega
  simp only []
  rw [checksumLoop_sum _ _ h1 hb _ 2 0 rfl (by decide)]
  have hn : (q.length + 2 + 1) % 256 - 2 = q.length + 1 := by omega
  simp [hn, List.take_append_eq_append_take]

/-- The method `checksumOk` on a buffer laid out as a frame whose length byte is
`len(q) + 2 ≤ 254`: the stored byte `k` is compared with the sum of the command
and the payload, modulo 256; the bytes after `k` are not looked at. -/
theorem checksumOk_layout (c cmd k : Nat) (q tail : List Nat) (hq : q.length ≤ 252) :
    packet.checksumOk { buf := [0x0f, q.length + 2, c] ++ q ++ k :: tail, command := cmd } =
      if (c + q.sum) % 256 ≠ k then some (.error (.checksumMismatch ((c + q.sum) % 256) k))
      else some (.ok ()) := by
  unfold packet.checksumOk
  have hack : isAck ([0x0f, q.length + 2, c] ++ q ++ k :: tail) = some false := by
    simp [isAck]
  have h1 : ([0x0f, q.length + 2, c] ++ q ++ k :: tail)[1]? = some (q.length + 2) := by
    simp
  have hi : (q.length + 2 + 1) % 256 = q.length + 3 := by omega
  have hk : ([0x0f, q.length + 2, c] ++ q ++ k :: tail)[q.length + 3]? = some k := by
    have h3 : ([0x0f, q.length + 2, c] ++ q ++ k :: tail) =
        ([0x0f, q.length + 2, c] ++ q) ++ k :: tail := rfl
    rw [h3, List.getElem?_append_right (by simp)]
    simp
  simp only [hack, h1, hi, hk, checksum_layout c cmd k q tail hq]

/-- The method `checksumOk` on a non-ack buffer whose length byte is 255: the
index `d[1]+1` wraps to 0, so the start byte is taken as the stored checksum and
the loop adds nothing. -/
theorem checksumOk_length_byte_255 (c cmd : Nat) (rest : List Nat) :
    packet.checksumOk { buf := 0x0f :: 0xff :: c :: rest, command := cmd } =
      some (.error (.checksumMismatch 0 0x0f)) := by
  unfold packet.checksumOk packet.checksum
  have h1 : (0x0f :: 0xff :: c :: rest)[1]? = some 0xff := by simp
  rw [checksumLoop_done _ 0xff 2 0 h1 (by decide)]
  simp [isAck]


/-- A frame of at most 252 payload bytes passes `checksumOk`. -/
theorem checksumOk_frame_of_le_252 (c : Nat) (p : List Nat) (hp : p.length ≤ 252) :
    ∃ pk, frame c p = some pk ∧ pk.checksumOk = some (.ok ()) := by
  refine ⟨_, frame_eq_of_le_252 c p hp, ?_⟩
  rw [checksumOk_layout c c _ p _ hp]
  simp

/-- A frame of exactly 253 payload bytes fails `checksumOk`. -/
theorem checksumOk_frame_of_eq_253 (c : Nat) (p : List Nat) (hp : p.length = 253) :
    ∃ pk, frame c p = some pk ∧
      pk.checksumOk = some (.error (.checksumMismatch 0 0x0f)) := by
  refine ⟨_, frame_eq_of_eq_253 c p hp, ?_⟩
  exact checksumOk_length_byte_255 c c _

/-- Replacing one element of a list changes its sum by the difference. -/
theorem sum_set_add (p : List Nat) (b : Nat) :
    ∀ (i : Nat) (hi : i < p.length), (p.set i b).sum + p[i] = p.sum + b := by
  induction p with
  | nil => intro i hi; simp at hi
  | cons x xs ih =>
    intro i hi
    cases i with
    | zero => simp; omega
    | succ j =>
      have hj : j < xs.length := by simpa using hi
      have := ih j hj
      simp only [List.set_cons_succ, List.sum_cons, List.getElem_cons_succ]
      omega

/-- C1 (at the failing input): the frame built by `init(0x5a)` and `setData` of
253 zero bytes is rejected by `checksumOk` with a checksum mismatch (computed 0,
stored 15): the byte `d[1]+1` wraps to 0 for the length byte 255. -/
theorem checksumOk_frame_253_zeros :
    ∃ pk, frame 0x5a (List.replicate 253 0) = some pk ∧
      pk.checksumOk = some (.error (.checksumMismatch 0 0x0f)) :=
  checksumOk_frame_of_eq_253 0x5a (List.replicate 253 0) (List.length_replicate 253 0)

/-- C2 (at the failing input): the frame built by `init(1)` and `setData` of 253
zero bytes carries the checksum byte 0, while `(c + sum p) mod 256` is 1. -/
theorem frame_253_zeros_checksum_byte :
    frame 1 (List.replicate 253 0) = some
        { buf := [0x0f, 0xff, 1] ++ List.replicate 253 0 ++ [0, 0xff, 0xff], command := 1 } ∧
      (1 + (List.replicate 253 0).sum) % 256 = 1 :=
  ⟨frame_eq_of_eq_253 1 (List.replicate 253 0) (List.length_replicate 253 0), by
    rw [List.sum_replicate, smul_zero]
    decide⟩

/-- C10: a buffer that starts with `0xF0, 0xFF, 0xFF` passes `checksumOk`,
whatever follows and whatever the command field holds. -/
theorem checksumOk_ack (rest : List Nat) (cmd : Nat) :
    packet.checksumOk { buf := 0xf0 :: 0xff :: 0xff :: rest, command := cmd } = some (.ok ()) := by
  simp [packet.checksumOk, isAck]

/-- C9: in the frame built from `(c, p)` with `len(p) ≤ 253`, replacing the payload
byte at frame offset `3 + i` by a different byte `b` makes `checksumOk` return a
checksum-mismatch error. -/
theorem checksumOk_payload_mutation (c : Nat) (p : List Nat) (i b : Nat)
    (hlen : p.length ≤ 253) (hp : isBytes p) (hb : b < 256) (hi : i < p.length)
    (hne : b ≠ p[i]) :
    ∃ pk got want, frame c p = some pk ∧ got ≠ want ∧
      packet.checksumOk { pk with buf := pk.buf.set (3 + i) b } =
        some (.error (.checksumMismatch got want)) := by
  have hpi : p[i] < 256 := hp _ (List.getElem_mem hi)
  by_cases h253 : p.length = 253
  · refine ⟨_, 0, 0x0f, frame_eq_of_eq_253 c p h253, by decide, ?_⟩
    have hs : ([0x0f, 0xff, c] ++ p ++ [0, 0xff, 0xff]).set (3 + i) b =
        0x0f :: 0xff :: c :: ((p ++ [0, 0xff, 0xff]).set i b) := by
      rw [Nat.add_comm 3 i]
      simp
    simp only [hs]
    exact checksumOk_length_byte_255 c c _
  · have h252 : p.length ≤ 252 := by omega
    refine ⟨_, (c + (p.set i b).sum) % 256, (c + p.sum) % 256,
      frame_eq_of_le_252 c p h252, ?_, ?_⟩
    · have := sum_set_add p b i hi
      omega
    · have hs : ([0x0f, p.length + 2, c] ++ p ++ [(c + p.sum) % 256, 0xff, 0xff]).set (3 + i) b =
          [0x0f, (p.set i b).length + 2, c] ++ p.set i b ++ [(c + p.sum) % 256, 0xff, 0xff] := by
        rw [Nat.add_comm 3 i]
        simp [List.set_append_left _ _ hi]
      simp only [hs]
      rw [checksumOk_layout c c _ (p.set i b) _ (by simpa using h252)]
      have := sum_set_add p b i hi
      have hne2 : (c + (p.set i b).sum) % 256 ≠ (c + p.sum) % 256 := by omega
      simp [hne2]

/-- Witness for C9: the frame of command `0x5a` and payload `[1, 2, 3]` with the
payload byte at offset 4 replaced by 9. -/
theorem checksumOk_payload_mutation_witness :
    ∃ pk got want, frame 0x5a [1, 2, 3] = some pk ∧ got ≠ want ∧
      packet.checksumOk { pk with buf := pk.buf.set (3 + 1) 9 } =
        some (.error (.checksumMismatch got want)) :=
  checksumOk_payload_mutation 0x5a [1, 2, 3] 1 9 (by decide) (by decide) (by decide)
    (by decide) (by decide)


/-! ## Oversized payloads -/

/-- The frame of a payload of exactly 254 bytes: the length byte wraps to 0 and
the checksum loop adds nothing. -/
theorem frame_eq_of_eq_254 (c : Nat) (p : List Nat) (hp : p.length = 254) :
    frame c p = some
      { buf := [0x0f, 0x00, c] ++ p ++ [0, 0xff, 0xff], command := c } := by
  unfold frame
  rw [setData_eq]
  simp [packet.init, hp]

/-- C7 (counterexample): for a payload of 254 zero bytes, so `len(p) + 2 = 256`,
`setData` reports no error and emits a 260-byte frame whose length byte is 0. -/
theorem setData_254_zeros_emits_frame :
    frame 0x5a (List.replicate 254 0) = some
      { buf := [0x0f, 0x00, 0x5a] ++ List.replicate 254 0 ++ [0, 0xff, 0xff], command := 0x5a } :=
  frame_eq_of_eq_254 0x5a (List.replicate 254 0) (List.length_replicate 254 0)

/-- C7 (amended): for every payload with `len(p) + 2 > 255`, `setData` has no size
check and still emits a frame: the start marker, the length byte
`(len(p) + 2) mod 256` (which is smaller than `len(p) + 2`), the command, the
payload, one checksum byte and the terminator. -/
theorem setData_oversized_emits_frame (c : Nat) (p : List Nat) (hp : 255 < p.length + 2) :
    ∃ k, k < 256 ∧ (p.length + 2) % 256 < p.length + 2 ∧ frame c p = some
      { buf := [0x0f, (p.length + 2) % 256, c] ++ p ++ [k, 0xff, 0xff], command := c } := by
  refine ⟨((c :: p).take (((p.length + 2) % 256 + 1) % 256 - 2)).sum % 256,
    Nat.mod_lt _ (by decide), by omega, ?_⟩
  unfold frame
  rw [setData_eq]
  simp [packet.init]

/-- Witness for C7 (amended): a payload of 254 zero bytes. -/
theorem setData_oversized_emits_frame_witness :
    ∃ k, k < 256 ∧ ((List.replicate 254 0).length + 2) % 256 < (List.replicate 254 0).length + 2 ∧
      frame 0x5a (List.replicate 254 0) = some
      { buf := [0x0f, ((List.replicate 254 0).length + 2) % 256, 0x5a] ++ List.replicate 254 0 ++
          [k, 0xff, 0xff], command := 0x5a } :=
  setData_oversized_emits_frame 0x5a (List.replicate 254 0) (by
    rw [List.length_replicate]
    decide)


/-! ## Validation of arbitrary 64-byte replies -/

/-- The ack test on a buffer of at least three bytes. -/
theorem isAck_cons (d0 d1 d2 : Nat) (rest : List Nat) :
    isAck (d0 :: d1 :: d2 :: rest) = some (decide (d0 = 0xf0 ∧ d1 = 0xff ∧ d2 = 0xff)) := by
  unfold isAck
  by_cases h0 : d0 = 0xf0 <;> by_cases h1 : d1 = 0xff <;> by_cases h2 : d2 = 0xff <;>
    simp [h0, h1, h2]

/-- The method `checksum` returns whenever the bound `d[1]+1` lies inside the
buffer. -/
theorem checksum_some_of_bound (d : List Nat) (cmd d1 : Nat) (h1 : d[1]? = some d1)
    (hb : (d1 + 1) % 256 ≤ d.length) : ∃ s, packet.checksum ⟨d, cmd⟩ = some s :=
  ⟨_, checksumLoop_sum d d1 h1 hb _ 2 0 rfl (by decide)⟩

/-- C8 (counterexample): a 64-byte reply whose length byte is `0x40`: the read
`d[d[1]+1]` of `checksumOk` is at index 65, outside the buffer, and the call
panics instead of returning success or a checksum mismatch. -/
theorem checksumOk_reply_out_of_range :
    (0x0f :: 0x40 :: List.replicate 62 0).length = 64 ∧
      packet.checksumOk { buf := 0x0f :: 0x40 :: List.replicate 62 0, command := 0 } = none := by
  constructor
  · rw [List.length_cons, List.length_cons, List.length_replicate]
  · have hn : (0x0f :: 0x40 :: List.replicate 62 0)[65]? = none :=
      List.getElem?_eq_none (by
        rw [List.length_cons, List.length_cons, List.length_replicate]
        decide)
    have ha : isAck (0x0f :: 0x40 :: List.replicate 62 0) = some false := by
      unfold isAck
      simp
    have h1 : (0x0f :: 0x40 :: List.replicate 62 0)[1]? = some 0x40 := rfl
    unfold packet.checksumOk
    simp only [ha, h1]
    have hidx : (0x40 + 1) % 256 = 65 := by decide
    rw [hidx, hn]

/-- C8 (amended): for every 64-byte reply of bytes whose length byte `d[1]` is at
most 62 or equal to 255 (every ack frame is such a reply), `checksumOk` returns
success or a checksum-mismatch error and `checksum` returns a sum, so no index
outside the buffer is read; for every other length byte `checksumOk` reads
outside the buffer and panics. -/
theorem checksumOk_reply_in_range (d : List Nat) (cmd : Nat) (hlen : d.length = 64)
    (hd : isBytes d) :
    ((d.getD 1 0 ≤ 62 ∨ d.getD 1 0 = 255) →
        (packet.checksumOk ⟨d, cmd⟩ = some (.ok ()) ∨
          ∃ got want, packet.checksumOk ⟨d, cmd⟩ = some (.error (.checksumMismatch got want))) ∧
        ∃ s, packet.checksum ⟨d, cmd⟩ = some s) ∧
    (¬ (d.getD 1 0 ≤ 62 ∨ d.getD 1 0 = 255) → packet.checksumOk ⟨d, cmd⟩ = none) := by
  match d, hlen, hd with
  | d0 :: d1 :: d2 :: rest, hlen, hd =>
    have hd1 : d1 < 256 := hd d1 (by simp)
    have hg : (d0 :: d1 :: d2 :: rest).getD 1 0 = d1 := rfl
    have h1 : (d0 :: d1 :: d2 :: rest)[1]? = some d1 := rfl
    rw [hg]
    constructor
    · intro hc
      have hidx : (d1 + 1) % 256 < (d0 :: d1 :: d2 :: rest).length := by
        rw [hlen]
        omega
      obtain ⟨s, hs⟩ := checksum_some_of_bound (d0 :: d1 :: d2 :: rest) cmd d1 h1 (by omega)
      refine ⟨?_, s, hs⟩
      unfold packet.checksumOk
      simp only [isAck_cons, h1, List.getElem?_eq_getElem hidx, hs]
      by_cases ha : d0 = 0xf0 ∧ d1 = 0xff ∧ d2 = 0xff
      · simp [ha]
      · by_cases hne : s ≠ (d0 :: d1 :: d2 :: rest)[(d1 + 1) % 256]
        · right
          exact ⟨s, (d0 :: d1 :: d2 :: rest)[(d1 + 1) % 256], by simp [ha, hne]⟩
        · left
          simp [ha, hne]
    · intro hc
      have hidx : (d0 :: d1 :: d2 :: rest).length ≤ (d1 + 1) % 256 := by
        rw [hlen]
        omega
      have ha : ¬ (d0 = 0xf0 ∧ d1 = 0xff ∧ d2 = 0xff) := by
        intro h
        omega
      unfold packet.checksumOk
      simp [isAck_cons, h1, List.getElem?_eq_none hidx, ha]

/-- Witness for C8 (amended): the 64-byte reply that starts like the `SysInfo`
request frame and is padded with zeros has the length byte 3. -/
theorem checksumOk_reply_in_range_witness :
    (packet.checksumOk ⟨[0x0f, 0x03, 0x5a, 0x00, 0x5a, 0xff, 0xff] ++ List.replicate 57 0, 0⟩ =
          some (.ok ()) ∨
        ∃ got want,
          packet.checksumOk ⟨[0x0f, 0x03, 0x5a, 0x00, 0x5a, 0xff, 0xff] ++ List.replicate 57 0, 0⟩ =
            some (.error (.checksumMismatch got want))) ∧
      ∃ s, packet.checksum ⟨[0x0f, 0x03, 0x5a, 0x00, 0x5a, 0xff, 0xff] ++ List.replicate 57 0, 0⟩ =
        some s :=
  (checksumOk_reply_in_range ([0x0f, 0x03, 0x5a, 0x00, 0x5a, 0xff, 0xff] ++ List.replicate 57 0) 0
    (by decide) (by decide)).1 (Or.inl (by decide))


/-! ## ProgramStart.encode -/

/-- The serialized `ProgramStart` has 16 bytes. -/
theorem ProgramStart_binaryWrite_length (p : ProgramStart) : p.binaryWrite.length = 16 := rfl

/-- The method `ProgramStart.encode` never fails: it returns the frame of command
`0x05` whose payload is the serialized copy carrying `programTypeMap[b][t]`. -/
theorem ProgramStart_encode_eq (p : ProgramStart) :
    p.encode = some
      { buf := [0x0f, 0x12, 0x05] ++
          ({ p with PwmMode := programTypeIndex p.BatteryType p.PwmMode } : ProgramStart).binaryWrite ++
          [(0x05 + ({ p with PwmMode := programTypeIndex p.BatteryType p.PwmMode } :
              ProgramStart).binaryWrite.sum) % 256, 0xff, 0xff],
        command := 0x05 } := by
  have h := frame_eq_of_le_252 0x05
    ({ p with PwmMode := programTypeIndex p.BatteryType p.PwmMode } : ProgramStart).binaryWrite
    (by rw [ProgramStart_binaryWrite_length]; decide)
  rw [ProgramStart_binaryWrite_length] at h
  exact h

/-- C3 (counterexample): for the pair (NiMh, Balance), which has no entry in
`programTypeMap`, `encode` returns a 22-byte frame whose program-type byte
(offset 6) is the device code 0. -/
theorem encode_NiMh_Balance_code_zero :
    programTypeEntry NiMh Balance = none ∧
      ∃ pk, ProgramStart.encode ⟨NiMh, 4, Balance, 1000, 0, 0, 4, 0, 0, 0⟩ = some pk ∧
        pk.buf.length = 22 ∧ pk.buf[6]? = some 0 :=
  ⟨rfl, _, ProgramStart_encode_eq _, rfl, rfl⟩

/-- C3 (amended): for every `ProgramStart` whose (BatteryType, PwmMode) pair has no
entry in `programTypeMap`, `encode` does not fail: it returns the frame of the
request with the program type replaced by the device code 0, so the byte at
offset 6 is 0. -/
theorem encode_unsupported_code_zero (p : ProgramStart)
    (h : programTypeEntry p.BatteryType p.PwmMode = none) :
    ∃ pk, p.encode = some pk ∧
      pk.buf = [0x0f, 0x12, 0x05] ++ ({ p with PwmMode := 0 } : ProgramStart).binaryWrite ++
        [(0x05 + ({ p with PwmMode := 0 } : ProgramStart).binaryWrite.sum) % 256, 0xff, 0xff] ∧
      pk.buf[6]? = some 0 := by
  have hz : programTypeIndex p.BatteryType p.PwmMode = 0 := by
    unfold programTypeIndex
    rw [h]
    rfl
  refine ⟨_, ProgramStart_encode_eq p, ?_, ?_⟩
  · simp only [hz]
  · simp only [hz]
    rfl

/-- Witness for C3 (amended): a lead-acid battery with the Storage program. -/
theorem encode_unsupported_code_zero_witness :
    ∃ pk, ProgramStart.encode ⟨Pb, 6, Storage, 500, 0, 0, 0, 0, 0, 0⟩ = some pk ∧
      pk.buf = [0x0f, 0x12, 0x05] ++
        ({ (⟨Pb, 6, Storage, 500, 0, 0, 0, 0, 0, 0⟩ : ProgramStart) with
            PwmMode := 0 } : ProgramStart).binaryWrite ++
        [(0x05 + ({ (⟨Pb, 6, Storage, 500, 0, 0, 0, 0, 0, 0⟩ : ProgramStart) with
            PwmMode := 0 } : ProgramStart).binaryWrite.sum) % 256, 0xff, 0xff] ∧
      pk.buf[6]? = some 0 :=
  encode_unsupported_code_zero ⟨Pb, 6, Storage, 500, 0, 0, 0, 0, 0, 0⟩ rfl

/-! ## Device session -/

/-- The request frame of `SysInfo`. -/
theorem SysInfo_encode_eq (s : SysInfo) :
    s.encode = some { buf := [0x0f, 0x03, 0x5a, 0x00, 0x5a, 0xff, 0xff], command := 0x5a } :=
  frame_eq_of_le_252 0x5a [0x00] (by decide)

/-- The request frame of `DevInfo`. -/
theorem DevInfo_encode_eq (d : DevInfo) :
    d.encode = some { buf := [0x0f, 0x03, 0x57, 0x00, 0x57, 0xff, 0xff], command := 0x57 } :=
  frame_eq_of_le_252 0x57 [0x00] (by decide)

/-- The request frame of `ProgramState`. -/
theorem ProgramState_encode_eq (p : ProgramState) :
    p.encode = some { buf := [0x0f, 0x03, 0x55, 0x00, 0x55, 0xff, 0xff], command := 0x55 } :=
  frame_eq_of_le_252 0x55 [0x00] (by decide)

/-- The request frame of `ProgramStop`. -/
theorem ProgramStop_encode_eq (p : ProgramStop) :
    p.encode = some { buf := [0x0f, 0x03, 0xfe, 0x00, 0xfe, 0xff, 0xff], command := 0xfe } :=
  frame_eq_of_le_252 0xfe [0x00] (by decide)

/-- The call `io.ReadFull` succeeds on a 64-byte reply for every size up to 64. -/
theorem readFull_reply (reply : List Nat) (size : Nat) (hlen : reply.length = 64)
    (hs : size ≤ 64) : readFull reply size = .ok (reply.take size) := by
  unfold readFull
  have h0 : ¬ reply.length = 0 := by omega
  have h1 : ¬ reply.length < size := by omega
  simp [h0, h1]

/-- The method `ReadSysInfo` hands the reply of the exchange to `parse` without
calling `checksumOk`. -/
theorem ReadSysInfo_of_reply (env : Nat → Attempt) (reply : List Nat) (cmd : packet)
    (hlen : reply.length = 64) (henc : SysInfo.zero.encode = some cmd)
    (hx : (writeCommand env cmd).1 = some (.ok reply)) :
    ∃ si, SysInfo.zero.parse reply = .ok si ∧ ReadSysInfo env = some (.ok si) := by
  unfold ReadSysInfo SysInfo.parse
  simp only [henc, hx, readFull_reply reply SysInfo.size hlen (by decide)]
  exact ⟨_, rfl, rfl⟩

/-- The method `ReadDevInfo` hands the reply of the exchange to `parse` without
calling `checksumOk`. -/
theorem ReadDevInfo_of_reply (env : Nat → Attempt) (reply : List Nat) (cmd : packet)
    (hlen : reply.length = 64) (henc : DevInfo.zero.encode = some cmd)
    (hx : (writeCommand env cmd).1 = some (.ok reply)) :
    ∃ di, DevInfo.zero.parse reply = .ok di ∧ ReadDevInfo env = some (.ok di) := by
  unfold ReadDevInfo DevInfo.parse
  simp only [henc, hx, readFull_reply reply DevInfo.size hlen (by decide)]
  exact ⟨_, rfl, rfl⟩

/-- The method `ReadProgramState` hands the reply of the exchange to `parse`
without calling `checksumOk`. -/
theorem ReadProgramState_of_reply (env : Nat → Attempt) (reply : List Nat) (cmd : packet)
    (hlen : reply.length = 64) (henc : ProgramState.zero.encode = some cmd)
    (hx : (writeCommand env cmd).1 = some (.ok reply)) :
    ∃ ps, ProgramState.zero.parse reply = .ok ps ∧ ReadProgramState env = some (.ok ps) := by
  unfold ReadProgramState ProgramState.parse
  simp only [henc, hx, readFull_reply reply ProgramState.size hlen (by decide)]
  exact ⟨_, rfl, rfl⟩

/-- The method `Stop` accepts every 64-byte reply of the exchange. -/
theorem Stop_of_reply (env : Nat → Attempt) (reply : List Nat) (cmd : packet)
    (hlen : reply.length = 64) (henc : ProgramStop.encode {} = some cmd)
    (hx : (writeCommand env cmd).1 = some (.ok reply)) :
    Stop env = some (.ok {}) := by
  unfold Stop ProgramStop.parse
  simp [henc, hx, hlen, replyLength]

/-- The method `Start` accepts every 64-byte reply of the exchange. -/
theorem Start_of_reply (env : Nat → Attempt) (p : ProgramStart) (reply : List Nat)
    (cmd : packet) (hlen : reply.length = 64) (henc : p.encode = some cmd)
    (hx : (writeCommand env cmd).1 = some (.ok reply)) :
    Start env p = some (.ok ()) := by
  unfold Start ProgramStart.parse
  simp [henc, hx, hlen, replyLength]

/-- C4 (counterexample): a 64-byte reply that is not an ack frame and whose stored
checksum byte (`0x07`) differs from the recomputed one (`0x5a`) is rejected by
`checksumOk`, yet every session operation that receives it from the exchange
returns success: the three read operations return the value decoded from it. -/
theorem session_accepts_bad_checksum :
    badChecksumReply.length = 64 ∧
      isAck badChecksumReply = some false ∧
      packet.checksumOk ⟨badChecksumReply, 0⟩ = some (.error (.checksumMismatch 0x5a 0x07)) ∧
      ReadSysInfo (repliesAt 0 badChecksumReply) =
        some (.ok ⟨7, 0, 0, 0, 0, 0, 0, 0, 0, 0, [0, 0, 0, 0, 0, 0]⟩) ∧
      ReadDevInfo (repliesAt 0 badChecksumReply) =
        some (.ok ⟨[7, 0, 0, 0, 0, 0], 0, 0, 0, 0, 0, 0⟩) ∧
      ReadProgramState (repliesAt 0 badChecksumReply) =
        some (.ok ⟨7, 0, 0, 0, 0, 0, 0, 0, [0, 0, 0, 0, 0, 0]⟩) ∧
      Stop (repliesAt 0 badChecksumReply) = some (.ok {}) ∧
      Start (repliesAt 0 badChecksumReply) ⟨LiPo, 3, Charge, 1000, 0, 0, 0, 0, 0, 0⟩ =
        some (.ok ()) := by
  refine ⟨by decide, by decide, ?_, ?_, ?_, ?_, ?_, ?_⟩
  · exact checksumOk_layout 0x5a 0 0x07 [0x00] (List.replicate 59 0) (by decide)
  · unfold ReadSysInfo
    simp only [SysInfo_encode_eq]
    rfl
  · unfold ReadDevInfo
    simp only [DevInfo_encode_eq]
    rfl
  · unfold ReadProgramState
    simp only [ProgramState_encode_eq]
    rfl
  · unfold Stop
    simp only [ProgramStop_encode_eq]
    rfl
  · unfold Start
    simp only [ProgramStart_encode_eq]
    rfl

/-- C4 (amended): no session operation validates the checksum of the reply.  For
every 64-byte reply that the exchange returns for the operation's request,
`ReadSysInfo`, `ReadDevInfo` and `ReadProgramState` return the value that `parse`
decodes from the reply, and `Stop` and `Start` return success, whether or not
the stored checksum byte matches the recomputed one. -/
theorem session_reply_not_validated (env : Nat → Attempt) (reply : List Nat)
    (p : ProgramStart) (hlen : reply.length = 64) :
    (∀ cmd, SysInfo.zero.encode = some cmd → (writeCommand env cmd).1 = some (.ok reply) →
        ∃ si, SysInfo.zero.parse reply = .ok si ∧ ReadSysInfo env = some (.ok si)) ∧
      (∀ cmd, DevInfo.zero.encode = some cmd → (writeCommand env cmd).1 = some (.ok reply) →
        ∃ di, DevInfo.zero.parse reply = .ok di ∧ ReadDevInfo env = some (.ok di)) ∧
      (∀ cmd, ProgramState.zero.encode = some cmd →
        (writeCommand env cmd).1 = some (.ok reply) →
        ∃ ps, ProgramState.zero.parse reply = .ok ps ∧ ReadProgramState env = some (.ok ps)) ∧
      (∀ cmd, ProgramStop.encode {} = some cmd → (writeCommand env cmd).1 = some (.ok reply) →
        Stop env = some (.ok {})) ∧
      (∀ cmd, p.encode = some cmd → (writeCommand env cmd).1 = some (.ok reply) →
        Start env p = some (.ok ())) :=
  ⟨fun cmd henc hx => ReadSysInfo_of_reply env reply cmd hlen henc hx,
    fun cmd henc hx => ReadDevInfo_of_reply env reply cmd hlen henc hx,
    fun cmd henc hx => ReadProgramState_of_reply env reply cmd hlen henc hx,
    fun cmd henc hx => Stop_of_reply env reply cmd hlen henc hx,
    fun cmd henc hx => Start_of_reply env p reply cmd hlen henc hx⟩

/-- Witness for C4 (amended): the reply with the wrong checksum byte, delivered
during the first wait, is decoded by `ReadSysInfo` and accepted by `Stop`. -/
theorem session_reply_not_validated_witness :
    (∃ si, SysInfo.zero.parse badChecksumReply = .ok si ∧
        ReadSysInfo (repliesAt 0 badChecksumReply) = some (.ok si)) ∧
      Stop (repliesAt 0 badChecksumReply) = some (.ok {}) :=
  ⟨(session_reply_not_validated (repliesAt 0 badChecksumReply) badChecksumReply
      ⟨LiPo, 3, Charge, 1000, 0, 0, 0, 0, 0, 0⟩ (by decide)).1 _ (SysInfo_encode_eq _) rfl,
    (session_reply_not_validated (repliesAt 0 badChecksumReply) badChecksumReply
      ⟨LiPo, 3, Charge, 1000, 0, 0, 0, 0, 0, 0⟩ (by decide)).2.2.2.1 _
      (ProgramStop_encode_eq _) rfl⟩

/-! ## Command exchange -/

/-- The call `WriteTo` against a device that accepts every byte: a non-empty
buffer is handed over whole, an empty one is not handed over at all, and the
buffer is empty afterwards. -/
theorem bufferWriteTo_accept (buf : List Nat) (w : List Nat → Nat × Option GoError)
    (hw : ∀ bs, w bs = (bs.length, none)) :
    bufferWriteTo buf w = some ⟨[], if buf = [] then none else some buf, none⟩ := by
  unfold bufferWriteTo
  cases buf with
  | nil => simp
  | cons b bs => simp [hw]

/-- C5 (at the failing input): for every non-empty frame sent to a device that
accepts every write and never replies, the first pass hands the frame to the
device, and the passes 2 and 3 hand it nothing: `WriteTo` has drained the
buffer of `cmd`, so the frame is not re-issued. -/
theorem writeCommand_retry_hands_nothing (b c : Nat) (bs : List Nat) :
    (writeCommand neverReplies ⟨b :: bs, c⟩).2 =
      [.writeTo (some (b :: bs)), .wait, .writeTo none, .wait, .writeTo none, .wait] := by
  simp [writeCommand, writeCommandLoop, sendAttempts, bufferWriteTo, neverReplies, acceptAll]

/-- The exact run of `writeCommand` against a device that accepts every write.
Only the first pass hands the frame to the device (none does when the buffer of
`cmd` is empty); without a reply there are 3 passes and the error "timeout in
command"; a reply during the wait of pass `k + 1 ≤ 3` is returned after `k + 1`
passes. -/
theorem writeCommand_passes (env : Nat → Attempt) (cmd : packet)
    (hw : ∀ k bs, (env k).write bs = (bs.length, none)) :
    ((∀ k, k < 3 → (env k).reply = none) →
        writeCommand env cmd = (some (.error .timeoutInCommand),
          attemptsTrace [if cmd.buf = [] then none else some cmd.buf, none, none])) ∧
      (∀ k r, k < 3 → (∀ j, j < k → (env j).reply = none) → (env k).reply = some r →
        writeCommand env cmd = (some (.ok r),
          attemptsTrace ((if cmd.buf = [] then none else some cmd.buf) ::
            List.replicate k none))) := by
  constructor
  · intro hn
    have h0 := hn 0 (by decide)
    have h1 := hn 1 (by decide)
    have h2 := hn 2 (by decide)
    simp [writeCommand, writeCommandLoop, sendAttempts, bufferWriteTo_accept _ _ (hw _),
      h0, h1, h2, attemptsTrace]
  · intro k r hk hn hr
    have hk3 : k = 0 ∨ k = 1 ∨ k = 2 := by omega
    rcases hk3 with rfl | rfl | rfl
    · simp [writeCommand, writeCommandLoop, sendAttempts, bufferWriteTo_accept _ _ (hw _),
        hr, attemptsTrace]
    · have h0 := hn 0 (by decide)
      simp [writeCommand, writeCommandLoop, sendAttempts, bufferWriteTo_accept _ _ (hw _),
        h0, hr, attemptsTrace, List.replicate]
    · have h0 := hn 0 (by decide)
      have h1 := hn 1 (by decide)
      simp [writeCommand, writeCommandLoop, sendAttempts, bufferWriteTo_accept _ _ (hw _),
        h0, h1, hr, attemptsTrace, List.replicate]

/-- C6 (at the failing input): a non-empty frame sent to a device that accepts
every write.  When the device never replies, `writeCommand` makes 3 passes and
returns "timeout in command", but the device is written to once, not three
times: the passes 2 and 3 are a `WriteTo` of the drained buffer followed by a
wait.  When the reply arrives during the wait of pass 1, 2 or 3 it is returned
and no later pass is made. -/
theorem writeCommand_one_device_write (b c : Nat) (bs r : List Nat) :
    (writeCommand neverReplies ⟨b :: bs, c⟩ =
        (some (.error .timeoutInCommand),
          [.writeTo (some (b :: bs)), .wait, .writeTo none, .wait, .writeTo none, .wait]) ∧
      deviceWrites (writeCommand neverReplies ⟨b :: bs, c⟩).2 = 1) ∧
      writeCommand (repliesAt 0 r) ⟨b :: bs, c⟩ =
        (some (.ok r), [.writeTo (some (b :: bs)), .wait]) ∧
      writeCommand (repliesAt 1 r) ⟨b :: bs, c⟩ =
        (some (.ok r), [.writeTo (some (b :: bs)), .wait, .writeTo none, .wait]) ∧
      writeCommand (repliesAt 2 r) ⟨b :: bs, c⟩ =
        (some (.ok r),
          [.writeTo (some (b :: bs)), .wait, .writeTo none, .wait, .writeTo none, .wait]) := by
  have hn := (writeCommand_passes neverReplies ⟨b :: bs, c⟩ (fun _ _ => rfl)).1
    (fun _ _ => rfl)
  have h0 := (writeCommand_passes (repliesAt 0 r) ⟨b :: bs, c⟩ (fun _ _ => rfl)).2 0 r
    (by decide) (fun j hj => absurd hj (Nat.not_lt_zero j)) rfl
  have h1 := (writeCommand_passes (repliesAt 1 r) ⟨b :: bs, c⟩ (fun _ _ => rfl)).2 1 r
    (by decide) (fun j hj => by
      have hj0 : j = 0 := by omega
      subst hj0
      rfl) rfl
  have h2 := (writeCommand_passes (repliesAt 2 r) ⟨b :: bs, c⟩ (fun _ _ => rfl)).2 2 r
    (by decide) (fun j hj => by
      have hj01 : j = 0 ∨ j = 1 := by omega
      rcases hj01 with rfl | rfl <;> rfl) rfl
  refine ⟨⟨?_, ?_⟩, ?_, ?_, ?_⟩
  · rw [hn]
    simp [attemptsTrace]
  · rw [hn]
    simp [attemptsTrace, deviceWrites]
  · rw [h0]
    simp [attemptsTrace]
  · rw [h1]
    simp [attemptsTrace, List.replicate]
  · rw [h2]
    simp [attemptsTrace, List.replicate]

/-! ## The table of device codes -/

/-- A key found by `lookup` is a key of the association list. -/
theorem lookup_mem {β : Type} (k : Nat) (v : β) :
    ∀ l : List (Nat × β), l.lookup k = some v → (k, v) ∈ l := by
  intro l
  induction l with
  | nil => intro h; simp [List.lookup] at h
  | cons x xs ih =>
    intro h
    obtain ⟨a, b⟩ := x
    by_cases hk : k = a
    · subst hk
      simp [List.lookup] at h
      simp [h]
    · have hne : (k == a) = false := by simpa using hk
      simp only [List.lookup, hne] at h
      exact List.mem_cons_of_mem _ (ih h)

/-- Every entry of `programTypeMap` belongs to one of the six battery types and
one of the eight program types, and its device code is at most 4. -/
theorem programTypeEntry_bounds (b t c : Nat) (h : programTypeEntry b t = some c) :
    b < 6 ∧ t < 8 ∧ c ≤ 4 := by
  unfold programTypeEntry at h
  cases hb : programTypeMap.lookup b with
  | none => simp [hb] at h
  | some inner =>
    rw [hb] at h
    have hm := lookup_mem b inner _ hb
    have ht := lookup_mem t c inner h
    simp only [programTypeMap, LiPo, LiIo, LiFe, NiMh, NiCd, Pb, Charge, Discharge, Storage,
      FastCharge, Balance, AutoCharge, RePeak, Cycle, List.mem_cons, Prod.mk.injEq,
      List.mem_singleton, List.not_mem_nil, or_false] at hm
    rcases hm with ⟨rfl, rfl⟩ | ⟨rfl, rfl⟩ | ⟨rfl, rfl⟩ | ⟨rfl, rfl⟩ | ⟨rfl, rfl⟩ | ⟨rfl, rfl⟩ <;>
      simp only [List.mem_cons, Prod.mk.injEq, List.mem_singleton, List.not_mem_nil,
        or_false] at ht <;>
      omega

/-- Within one battery type no two program types share a device code. -/
theorem programTypeEntry_inj (b t1 t2 c : Nat) (h1 : programTypeEntry b t1 = some c)
    (h2 : programTypeEntry b t2 = some c) : t1 = t2 := by
  unfold programTypeEntry at h1 h2
  cases hb : programTypeMap.lookup b with
  | none => simp [hb] at h1
  | some inner =>
    rw [hb] at h1 h2
    have hm := lookup_mem b inner _ hb
    have m1 := lookup_mem t1 c inner h1
    have m2 := lookup_mem t2 c inner h2
    simp only [programTypeMap, LiPo, LiIo, LiFe, NiMh, NiCd, Pb, Charge, Discharge, Storage,
      FastCharge, Balance, AutoCharge, RePeak, Cycle, List.mem_cons, Prod.mk.injEq,
      List.mem_singleton, List.not_mem_nil, or_false] at hm
    rcases hm with ⟨rfl, rfl⟩ | ⟨rfl, rfl⟩ | ⟨rfl, rfl⟩ | ⟨rfl, rfl⟩ | ⟨rfl, rfl⟩ | ⟨rfl, rfl⟩ <;>
      simp only [List.mem_cons, Prod.mk.injEq, List.mem_singleton, List.not_mem_nil,
        or_false] at m1 m2 <;>
      omega

/-- The Go expression `programTypeMap[b][t]` is the entry when there is one. -/
theorem programTypeIndex_of_entry (b t c : Nat) (h : programTypeEntry b t = some c) :
    programTypeIndex b t = c := by
  unfold programTypeIndex
  rw [h]
  rfl

/-- C12: in `programTypeMap`, NiMh and NiCd each have entries for AutoCharge,
RePeak and Cycle and none for Balance; Pb has entries for Charge and Discharge
and for no other program type; the device code of (NiMh, AutoCharge) is 1. -/
theorem programTypeMap_chemistry :
    (programTypeEntry NiMh AutoCharge = some 1 ∧ programTypeEntry NiMh RePeak = some 3 ∧
        programTypeEntry NiMh Cycle = some 4 ∧ programTypeEntry NiMh Balance = none) ∧
      (programTypeEntry NiCd AutoCharge = some 1 ∧ programTypeEntry NiCd RePeak = some 3 ∧
        programTypeEntry NiCd Cycle = some 4 ∧ programTypeEntry NiCd Balance = none) ∧
      (∀ t, programTypeEntry Pb t ≠ none ↔ t = Charge ∨ t = Discharge) := by
  refine ⟨⟨rfl, rfl, rfl, rfl⟩, ⟨rfl, rfl, rfl, rfl⟩, ?_⟩
  intro t
  constructor
  · intro h
    cases hc : programTypeEntry Pb t with
    | none => exact absurd hc h
    | some c =>
      unfold programTypeEntry at hc
      have hl : programTypeMap.lookup Pb = some [(Charge, 0), (Discharge, 1)] := rfl
      rw [hl] at hc
      have hm := lookup_mem t c _ hc
      simp only [Charge, Discharge, List.mem_cons, Prod.mk.injEq, List.mem_singleton,
        List.not_mem_nil, or_false] at hm
      rcases hm with ⟨rfl, _⟩ | ⟨rfl, _⟩
      · exact Or.inl rfl
      · exact Or.inr rfl
  · rintro (rfl | rfl) <;> decide

/-- C13: the request frames of the four read-style messages are the 7 bytes
`0x0F, 0x03, cmd, 0x00, cmd, 0xFF, 0xFF` with `cmd = 0x5A` for `SysInfo`, `0x57`
for `DevInfo`, `0x55` for `ProgramState` and `0xFE` for `ProgramStop`, whatever
the receiver holds. -/
theorem read_request_frames (s : SysInfo) (d : DevInfo) (p : ProgramState) (q : ProgramStop) :
    s.encode = some { buf := [0x0f, 0x03, 0x5a, 0x00, 0x5a, 0xff, 0xff], command := 0x5a } ∧
      d.encode = some { buf := [0x0f, 0x03, 0x57, 0x00, 0x57, 0xff, 0xff], command := 0x57 } ∧
      p.encode = some { buf := [0x0f, 0x03, 0x55, 0x00, 0x55, 0xff, 0xff], command := 0x55 } ∧
      q.encode = some { buf := [0x0f, 0x03, 0xfe, 0x00, 0xfe, 0xff, 0xff], command := 0xfe } :=
  ⟨SysInfo_encode_eq s, DevInfo_encode_eq d, ProgramState_encode_eq p, ProgramStop_encode_eq q⟩

/-- C11: for every `ProgramStart` (fields in the range of their Go types) whose
(BatteryType, PwmMode) pair has the entry `code` in `programTypeMap`, `encode`
yields the 22-byte frame `0x0F, 0x12, 0x05`, the 16-byte payload with the pad
byte, the battery type, the cells, `code`, the 16-bit fields big-endian and the
two 8-bit fields in declaration order, the checksum `(0x05 + sum of the
payload) mod 256`, and `0xFF, 0xFF`. -/
theorem encode_supported_frame (p : ProgramStart) (code : Nat) (hr : p.inRange)
    (hc : programTypeEntry p.BatteryType p.PwmMode = some code) :
    p.encode = some
      { buf := [0x0f, 0x12, 0x05] ++
          [0x00, p.BatteryType, p.Cells, code,
            p.ChargeCurrent / 256, p.ChargeCurrent % 256,
            p.DischargeCurrent / 256, p.DischargeCurrent % 256,
            p.DischargeCutoff / 256, p.DischargeCutoff % 256,
            p.ChargeCutoff / 256, p.ChargeCutoff % 256,
            p.RePeakCycleInfo, p.CycleCount,
            p.Trickle / 256, p.Trickle % 256] ++
          [(0x05 +
            [0x00, p.BatteryType, p.Cells, code,
              p.ChargeCurrent / 256, p.ChargeCurrent % 256,
              p.DischargeCurrent / 256, p.DischargeCurrent % 256,
              p.DischargeCutoff / 256, p.DischargeCutoff % 256,
              p.ChargeCutoff / 256, p.ChargeCutoff % 256,
              p.RePeakCycleInfo, p.CycleCount,
              p.Trickle / 256, p.Trickle % 256].sum) % 256, 0xff, 0xff],
        command := 0x05 } := by
  obtain ⟨h1, h2, _, h4, h5, h6, h7, h8, h9, h10⟩ := hr
  have hcode : code ≤ 4 := (programTypeEntry_bounds _ _ _ hc).2.2
  have e1 : p.BatteryType % 256 = p.BatteryType := Nat.mod_eq_of_lt h1
  have e2 : p.Cells % 256 = p.Cells := Nat.mod_eq_of_lt h2
  have e3 : code % 256 = code := Nat.mod_eq_of_lt (by omega)
  have e4 : p.ChargeCurrent / 256 % 256 = p.ChargeCurrent / 256 := by omega
  have e5 : p.DischargeCurrent / 256 % 256 = p.DischargeCurrent / 256 := by omega
  have e6 : p.DischargeCutoff / 256 % 256 = p.DischargeCutoff / 256 := by omega
  have e7 : p.ChargeCutoff / 256 % 256 = p.ChargeCutoff / 256 := by omega
  have e8 : p.RePeakCycleInfo % 256 = p.RePeakCycleInfo := Nat.mod_eq_of_lt h8
  have e9 : p.CycleCount % 256 = p.CycleCount := Nat.mod_eq_of_lt h9
  have e10 : p.Trickle / 256 % 256 = p.Trickle / 256 := by omega
  rw [ProgramStart_encode_eq, programTypeIndex_of_entry _ _ _ hc]
  simp only [ProgramStart.binaryWrite, putUint16, e1, e2, e3, e4, e5, e6, e7, e8, e9, e10,
    List.cons_append, List.nil_append]

/-- Witness for C11: a 4-cell NiMh battery with the AutoCharge program (device
code 1), 1000 mA charge current and a 4 mV cutoff. -/
theorem encode_supported_frame_witness :
    ProgramStart.encode ⟨NiMh, 4, AutoCharge, 1000, 0, 0, 4, 0, 0, 0⟩ = some
      { buf := [0x0f, 0x12, 0x05, 0x00, 3, 4, 1, 3, 232, 0, 0, 0, 0, 0, 4, 0, 0, 0, 0,
          252, 0xff, 0xff],
        command := 0x05 } :=
  encode_supported_frame ⟨NiMh, 4, AutoCharge, 1000, 0, 0, 4, 0, 0, 0⟩ 1 (by decide) rfl

/-! ## Decoding of replies -/

/-- The call `io.ReadFull` fails exactly on a reply shorter than the size. -/
theorem readFull_error_iff (data : List Nat) (size : Nat) (hs : 0 < size) :
    (∃ e, readFull data size = .error e) ↔ data.length < size := by
  unfold readFull
  by_cases h0 : data.length = 0
  · simp [h0, hs]
  · by_cases h1 : data.length < size
    · simp [h0, h1]
    · simp [h0, h1]

/-- The call `io.ReadFull` on a reply that is long enough returns its first
`size` bytes. -/
theorem readFull_ok (data : List Nat) (size : Nat) (hs : 0 < size) (h : size ≤ data.length) :
    readFull data size = .ok (data.take size) := by
  unfold readFull
  have h0 : ¬ data.length = 0 := by omega
  have h1 : ¬ data.length < size := by omega
  simp [h0, h1]

/-- Appending bytes to a reply that is long enough does not change what
`io.ReadFull` returns. -/
theorem readFull_append (data extra : List Nat) (size : Nat) (hs : 0 < size)
    (h : size ≤ data.length) : readFull (data ++ extra) size = readFull data size := by
  rw [readFull_ok data size hs h,
    readFull_ok (data ++ extra) size hs (by rw [List.length_append]; omega)]
  rw [List.take_append_of_le_length h]

/-- A byte of the prefix read by `binary.Read` is the byte of the reply. -/
theorem getD_take (b : List Nat) (n i : Nat) (hi : i < n) (hb : i < b.length) :
    (b.take n).getD i 0 = b[i] := by
  rw [List.getD_eq_getElem?_getD, List.getElem?_take_of_lt hi, List.getElem?_eq_getElem hb]
  rfl

/-- Replacing the 4 header bytes leaves the bytes read from offset 4 on
unchanged. -/
theorem getD_take_header (hdr b : List Nat) (n i : Nat) (hh : hdr.length = 4) (hi : 4 ≤ i) :
    ((hdr ++ b.drop 4).take n).getD i 0 = (b.take n).getD i 0 := by
  by_cases hn : i < n
  · rw [List.getD_eq_getElem?_getD, List.getD_eq_getElem?_getD, List.getElem?_take_of_lt hn,
      List.getElem?_take_of_lt hn, List.getElem?_append_right (by omega), List.getElem?_drop, hh]
    have e : 4 + (i - 4) = i := by omega
    rw [e]
  · have h1 : ((hdr ++ b.drop 4).take n)[i]? = none :=
      List.getElem?_eq_none (by rw [List.length_take]; omega)
    have h2 : (b.take n)[i]? = none :=
      List.getElem?_eq_none (by rw [List.length_take]; omega)
    rw [List.getD_eq_getElem?_getD, List.getD_eq_getElem?_getD, h1, h2]

/-- The method `SysInfo.parse` on a reply of at least 30 bytes, as a function of
the bytes read. -/
theorem SysInfo_parse_ok (s : SysInfo) (b : List Nat) (h : 30 ≤ b.length) :
    s.parse b = .ok
      { CycleTime := getUint8 (b.take 30) 4
        TimeLimitOn := getUint8 (b.take 30) 5
        TimeLimit := getUint16 (b.take 30) 6
        CapLimitOn := getUint8 (b.take 30) 8
        CapLimit := getUint16 (b.take 30) 9
        KeyBuzz := getUint8 (b.take 30) 11
        SysBuzz := getUint8 (b.take 30) 12
        InDCLowLimit := getUint16 (b.take 30) 13
        TemperatureLimit := getUint8 (b.take 30) 15
        Millivolts := getUint16 (b.take 30) 16
        Cells := (List.range 6).map fun i => getUint16 (b.take 30) (18 + 2 * i) } := by
  unfold SysInfo.parse
  rw [readFull_ok b SysInfo.size (by decide) h]
  rfl

/-- C14: for every reply `b` of at least 30 bytes `SysInfo.parse` succeeds, each
field is the byte or the big-endian pair of bytes at its fixed offset
(`Millivolts = b[16]*256 + b[17]`, `CapLimit = b[9]*256 + b[10]`,
`Cells[i] = b[18+2i]*256 + b[19+2i]`, and so on), and replacing the 4 header
bytes changes no field. -/
theorem SysInfo_parse_fields (s : SysInfo) (b : List Nat) (h : 30 ≤ b.length) :
    ∃ si, s.parse b = .ok si ∧
      si.CycleTime = b[4] ∧ si.TimeLimitOn = b[5] ∧ si.TimeLimit = b[6] * 256 + b[7] ∧
      si.CapLimitOn = b[8] ∧ si.CapLimit = b[9] * 256 + b[10] ∧ si.KeyBuzz = b[11] ∧
      si.SysBuzz = b[12] ∧ si.InDCLowLimit = b[13] * 256 + b[14] ∧
      si.TemperatureLimit = b[15] ∧ si.Millivolts = b[16] * 256 + b[17] ∧
      si.Cells = [b[18] * 256 + b[19], b[20] * 256 + b[21], b[22] * 256 + b[23],
        b[24] * 256 + b[25], b[26] * 256 + b[27], b[28] * 256 + b[29]] ∧
      ∀ hdr : List Nat, hdr.length = 4 → s.parse (hdr ++ b.drop 4) = .ok si := by
  refine ⟨_, SysInfo_parse_ok s b h, ?_, ?_, ?_, ?_, ?_, ?_, ?_, ?_, ?_, ?_, ?_, ?_⟩
  · exact getD_take b 30 4 (by decide) (by omega)
  · exact getD_take b 30 5 (by decide) (by omega)
  · simp only [getUint16]
    rw [getD_take b 30 6 (by decide) (by omega), getD_take b 30 7 (by decide) (by omega)]
  · exact getD_take b 30 8 (by decide) (by omega)
  · simp only [getUint16]
    rw [getD_take b 30 9 (by decide) (by omega), getD_take b 30 10 (by decide) (by omega)]
  · exact getD_take b 30 11 (by decide) (by omega)
  · exact getD_take b 30 12 (by decide) (by omega)
  · simp only [getUint16]
    rw [getD_take b 30 13 (by decide) (by omega), getD_take b 30 14 (by decide) (by omega)]
  · exact getD_take b 30 15 (by decide) (by omega)
  · simp only [getUint16]
    rw [getD_take b 30 16 (by decide) (by omega), getD_take b 30 17 (by decide) (by omega)]
  · show [getUint16 (b.take 30) 18, getUint16 (b.take 30) 20, getUint16 (b.take 30) 22,
      getUint16 (b.take 30) 24, getUint16 (b.take 30) 26, getUint16 (b.take 30) 28] = _
    simp only [getUint16]
    rw [getD_take b 30 18 (by decide) (by omega), getD_take b 30 19 (by decide) (by omega),
      getD_take b 30 20 (by decide) (by omega), getD_take b 30 21 (by decide) (by omega),
      getD_take b 30 22 (by decide) (by omega), getD_take b 30 23 (by decide) (by omega),
      getD_take b 30 24 (by decide) (by omega), getD_take b 30 25 (by decide) (by omega),
      getD_take b 30 26 (by decide) (by omega), getD_take b 30 27 (by decide) (by omega),
      getD_take b 30 28 (by decide) (by omega), getD_take b 30 29 (by decide) (by omega)]
  · intro hdr hh
    rw [SysInfo_parse_ok s (hdr ++ b.drop 4)
      (by rw [List.length_append, List.length_drop]; omega)]
    simp (disch := omega) only [getUint8, getUint16, getD_take_header hdr b 30 _ hh]

/-- Witness for C14: a 30-byte reply with `CapLimit` bytes `0x13, 0x88` (5000 mAh)
and `Millivolts` bytes `0x2e, 0xe0` (12000 mV). -/
theorem SysInfo_parse_fields_witness :
    ∃ si, SysInfo.zero.parse
        [0x0f, 0x1b, 0x5a, 0, 10, 1, 0, 120, 1, 0x13, 0x88, 1, 1, 0x2a, 0xf8, 80, 0x2e, 0xe0,
          0x0f, 0xa0, 0x0f, 0xa1, 0x0f, 0xa2, 0, 0, 0, 0, 0, 0] = .ok si ∧
      si.CapLimit = 5000 ∧ si.Millivolts = 12000 ∧ si.Cells = [4000, 4001, 4002, 0, 0, 0] := by
  obtain ⟨si, hp, _, _, _, _, hcap, _, _, _, _, hmv, hcells, _⟩ :=
    SysInfo_parse_fields SysInfo.zero
      [0x0f, 0x1b, 0x5a, 0, 10, 1, 0, 120, 1, 0x13, 0x88, 1, 1, 0x2a, 0xf8, 80, 0x2e, 0xe0,
        0x0f, 0xa0, 0x0f, 0xa1, 0x0f, 0xa2, 0, 0, 0, 0, 0, 0] (by decide)
  exact ⟨si, hp, hcap, hmv, hcells⟩

/-- The result of `SysInfo.parse` is decided by `io.ReadFull`. -/
theorem SysInfo_parse_error_iff (s : SysInfo) (b : List Nat) :
    (∃ e, s.parse b = .error e) ↔ b.length < 30 := by
  rw [← readFull_error_iff b 30 (by decide)]
  unfold SysInfo.parse SysInfo.size
  cases readFull b 30 <;> simp

/-- The result of `DevInfo.parse` is decided by `io.ReadFull`. -/
theorem DevInfo_parse_error_iff (d : DevInfo) (b : List Nat) :
    (∃ e, d.parse b = .error e) ↔ b.length < 18 := by
  rw [← readFull_error_iff b 18 (by decide)]
  unfold DevInfo.parse DevInfo.size
  cases readFull b 18 <;> simp

/-- The result of `ProgramState.parse` is decided by `io.ReadFull`. -/
theorem ProgramState_parse_error_iff (p : ProgramState) (b : List Nat) :
    (∃ e, p.parse b = .error e) ↔ b.length < 29 := by
  rw [← readFull_error_iff b 29 (by decide)]
  unfold ProgramState.parse ProgramState.size
  cases readFull b 29 <;> simp

/-- On a long enough reply `SysInfo.parse` succeeds and ignores what follows. -/
theorem SysInfo_parse_append (s : SysInfo) (b : List Nat) (h : 30 ≤ b.length) :
    ∃ v, s.parse b = .ok v ∧ ∀ extra, s.parse (b ++ extra) = .ok v := by
  refine ⟨_, SysInfo_parse_ok s b h, fun extra => ?_⟩
  rw [← SysInfo_parse_ok s b h]
  unfold SysInfo.parse
  rw [readFull_append b extra SysInfo.size (by decide) h]

/-- On a long enough reply `DevInfo.parse` succeeds and ignores what follows. -/
theorem DevInfo_parse_append (d : DevInfo) (b : List Nat) (h : 18 ≤ b.length) :
    ∃ v, d.parse b = .ok v ∧ ∀ extra, d.parse (b ++ extra) = .ok v := by
  have hr := readFull_ok b DevInfo.size (by decide) h
  have hp : ∃ v, d.parse b = .ok v := by
    unfold DevInfo.parse
    rw [hr]
    exact ⟨_, rfl⟩
  obtain ⟨v, hv⟩ := hp
  refine ⟨v, hv, fun extra => ?_⟩
  rw [← hv]
  unfold DevInfo.parse
  rw [readFull_append b extra DevInfo.size (by decide) h]

/-- On a long enough reply `ProgramState.parse` succeeds and ignores what
follows. -/
theorem ProgramState_parse_append (p : ProgramState) (b : List Nat) (h : 29 ≤ b.length) :
    ∃ v, p.parse b = .ok v ∧ ∀ extra, p.parse (b ++ extra) = .ok v := by
  have hr := readFull_ok b ProgramState.size (by decide) h
  have hp : ∃ v, p.parse b = .ok v := by
    unfold ProgramState.parse
    rw [hr]
    exact ⟨_, rfl⟩
  obtain ⟨v, hv⟩ := hp
  refine ⟨v, hv, fun extra => ?_⟩
  rw [← hv]
  unfold ProgramState.parse
  rw [readFull_append b extra ProgramState.size (by decide) h]

/-- C15: `SysInfo.parse`, `DevInfo.parse` and `ProgramState.parse` return an error
exactly when the reply is shorter than 30, 18 and 29 bytes respectively; on a
reply at least that long they succeed, and bytes appended to it do not change
the decoded value. -/
theorem info_parse_error_iff_short (s : SysInfo) (d : DevInfo) (p : ProgramState)
    (b : List Nat) :
    (((∃ e, s.parse b = .error e) ↔ b.length < 30) ∧
        (30 ≤ b.length → ∃ v, s.parse b = .ok v ∧ ∀ extra, s.parse (b ++ extra) = .ok v)) ∧
      (((∃ e, d.parse b = .error e) ↔ b.length < 18) ∧
        (18 ≤ b.length → ∃ v, d.parse b = .ok v ∧ ∀ extra, d.parse (b ++ extra) = .ok v)) ∧
      (((∃ e, p.parse b = .error e) ↔ b.length < 29) ∧
        (29 ≤ b.length → ∃ v, p.parse b = .ok v ∧ ∀ extra, p.parse (b ++ extra) = .ok v)) :=
  ⟨⟨SysInfo_parse_error_iff s b, SysInfo_parse_append s b⟩,
    ⟨DevInfo_parse_error_iff d b, DevInfo_parse_append d b⟩,
    ⟨ProgramState_parse_error_iff p b, ProgramState_parse_append p b⟩⟩

/-- Witness for C15: a reply of 29 zero bytes is too short for `SysInfo` (30 bytes)
and long enough for `DevInfo` (18) and `ProgramState` (29). -/
theorem info_parse_error_iff_short_witness :
    (∃ e, SysInfo.zero.parse (List.replicate 29 0) = .error e) ∧
      (∃ v, DevInfo.zero.parse (List.replicate 29 0) = .ok v ∧
        ∀ extra, DevInfo.zero.parse (List.replicate 29 0 ++ extra) = .ok v) ∧
      (∃ v, ProgramState.zero.parse (List.replicate 29 0) = .ok v ∧
        ∀ extra, ProgramState.zero.parse (List.replicate 29 0 ++ extra) = .ok v) :=
  ⟨(info_parse_error_iff_short SysInfo.zero DevInfo.zero ProgramState.zero
      (List.replicate 29 0)).1.1.2 (by decide),
    (info_parse_error_iff_short SysInfo.zero DevInfo.zero ProgramState.zero
      (List.replicate 29 0)).2.1.2 (by decide),
    (info_parse_error_iff_short SysInfo.zero DevInfo.zero ProgramState.zero
      (List.replicate 29 0)).2.2.2 (by decide)⟩

/-- C16: `ProgramStart.parse` and `ProgramStop.parse` return success exactly when
the reply has length 64, whatever its bytes; for every other length `n` they
return the error that reports `got = n` and `want = 64`. -/
theorem ack_parse_length (p : ProgramStart) (q : ProgramStop) (data : List Nat) :
    ((p.parse data = .ok () ↔ data.length = 64) ∧ (q.parse data = .ok () ↔ data.length = 64)) ∧
      (data.length ≠ 64 →
        p.parse data = .error (.dataLength data.length 64) ∧
          q.parse data = .error (.dataLength data.length 64)) := by
  unfold ProgramStart.parse ProgramStop.parse replyLength
  by_cases h : data.length = 64
  · simp [h]
  · simp [h]

/-- Witness for C16: a 63-byte buffer is rejected with `got=63 want=64` and a
64-byte buffer is accepted. -/
theorem ack_parse_length_witness :
    (ProgramStop.parse {} (List.replicate 63 0) = .error (.dataLength 63 64) ∧
        ProgramStart.parse ⟨LiPo, 3, Charge, 1000, 0, 0, 0, 0, 0, 0⟩ (List.replicate 63 0) =
          .error (.dataLength 63 64)) ∧
      ProgramStop.parse {} (List.replicate 64 7) = .ok () :=
  ⟨⟨((ack_parse_length ⟨LiPo, 3, Charge, 1000, 0, 0, 0, 0, 0, 0⟩ {}
        (List.replicate 63 0)).2 (by decide)).2,
      ((ack_parse_length ⟨LiPo, 3, Charge, 1000, 0, 0, 0, 0, 0, 0⟩ {}
        (List.replicate 63 0)).2 (by decide)).1⟩,
    (ack_parse_length ⟨LiPo, 3, Charge, 1000, 0, 0, 0, 0, 0, 0⟩ {}
      (List.replicate 64 7)).1.2.2 (by decide)⟩

/-! ## Injectivity and frame effect of ProgramStart.encode -/

/-- A 16-bit value is determined by its two big-endian bytes. -/
theorem putUint16_inj (v w : Nat) (hv : v < 65536) (hw : w < 65536)
    (h1 : v / 256 % 256 = w / 256 % 256) (h2 : v % 256 = w % 256) : v = w := by
  omega

/-- C19: `ProgramStart.encode` is injective on supported requests: if the
(BatteryType, PwmMode) pairs of `a` and `b` both have entries in
`programTypeMap` and the two frames have equal bytes, then `a` and `b` agree on
every field. -/
theorem encode_injective (a b : ProgramStart) (pa pb : packet) (ha : a.inRange)
    (hb : b.inRange) (hsa : programTypeEntry a.BatteryType a.PwmMode ≠ none)
    (hsb : programTypeEntry b.BatteryType b.PwmMode ≠ none)
    (hea : a.encode = some pa) (heb : b.encode = some pb) (h : pa.buf = pb.buf) : a = b := by
  obtain ⟨ca, hca⟩ := Option.ne_none_iff_exists'.mp hsa
  obtain ⟨cb, hcb⟩ := Option.ne_none_iff_exists'.mp hsb
  have hca4 : ca ≤ 4 := (programTypeEntry_bounds _ _ _ hca).2.2
  have hcb4 : cb ≤ 4 := (programTypeEntry_bounds _ _ _ hcb).2.2
  rw [ProgramStart_encode_eq, programTypeIndex_of_entry _ _ _ hca] at hea
  rw [ProgramStart_encode_eq, programTypeIndex_of_entry _ _ _ hcb] at heb
  have hpa := (Option.some.inj hea).symm
  have hpb := (Option.some.inj heb).symm
  rw [hpa, hpb] at h
  simp only [ProgramStart.binaryWrite, putUint16, List.cons_append, List.nil_append,
    List.cons.injEq] at h
  obtain ⟨a1, a2, a3, a4, a5, a6, a7, a8, a9, a10⟩ := ha
  obtain ⟨b1, b2, b3, b4, b5, b6, b7, b8, b9, b10⟩ := hb
  obtain ⟨_, _, _, _, e1, e2, e3, e4h, e4l, e5h, e5l, e6h, e6l, e7h, e7l, e8, e9, e10h,
    e10l, _⟩ := h
  have f1 : a.BatteryType = b.BatteryType := by omega
  have f2 : a.Cells = b.Cells := by omega
  have fc : ca = cb := by omega
  have f3 : a.PwmMode = b.PwmMode := by
    rw [← f1, ← fc] at hcb
    exact programTypeEntry_inj _ _ _ _ hca hcb
  have f4 := putUint16_inj _ _ a4 b4 e4h e4l
  have f5 := putUint16_inj _ _ a5 b5 e5h e5l
  have f6 := putUint16_inj _ _ a6 b6 e6h e6l
  have f7 := putUint16_inj _ _ a7 b7 e7h e7l
  have f8 : a.RePeakCycleInfo = b.RePeakCycleInfo := by omega
  have f9 : a.CycleCount = b.CycleCount := by omega
  have f10 := putUint16_inj _ _ a10 b10 e10h e10l
  cases a
  cases b
  simp only [ProgramStart.mk.injEq]
  exact ⟨f1, f2, f3, f4, f5, f6, f7, f8, f9, f10⟩

/-- Witness for C19: a supported NiMh AutoCharge request compared with itself. -/
theorem encode_injective_witness :
    (⟨NiMh, 4, AutoCharge, 1000, 0, 0, 4, 0, 0, 0⟩ : ProgramStart) =
      ⟨NiMh, 4, AutoCharge, 1000, 0, 0, 4, 0, 0, 0⟩ :=
  encode_injective ⟨NiMh, 4, AutoCharge, 1000, 0, 0, 4, 0, 0, 0⟩
    ⟨NiMh, 4, AutoCharge, 1000, 0, 0, 4, 0, 0, 0⟩ _ _ (by decide) (by decide) (by decide)
    (by decide) (ProgramStart_encode_eq _) (ProgramStart_encode_eq _) rfl

/-- A pointer that can be read is an allocated address. -/
theorem Heap.load_lt (h : Heap) (a : Nat) (v : ProgramStart) (ha : h.load a = some v) :
    a < h.cells.length := by
  by_contra hge
  have hn : h.cells[a]? = none := List.getElem?_eq_none (by omega)
  unfold Heap.load at ha
  rw [hn] at ha
  cases ha

/-- A write through a pointer leaves every other allocated cell as it was. -/
theorem Heap.load_store_ne (h : Heap) (a b : Nat) (v : ProgramStart) (hab : a ≠ b) :
    (h.store a v).load b = h.load b := by
  unfold Heap.store Heap.load
  exact List.getElem?_set_ne hab

/-- A write through an allocated pointer is read back. -/
theorem Heap.load_store_eq (h : Heap) (a : Nat) (v : ProgramStart) (ha : a < h.cells.length) :
    (h.store a v).load a = some v := by
  unfold Heap.store Heap.load
  rw [List.getElem?_set_self ha]

/-- An allocation returns an address that was not allocated, holding the initial
value, and leaves the allocated cells as they were. -/
theorem Heap.alloc_spec (h : Heap) (v : ProgramStart) :
    (h.alloc v).2 = h.cells.length ∧ (h.alloc v).1.load (h.alloc v).2 = some v ∧
      (h.alloc v).1.cells.length = h.cells.length + 1 ∧
      ∀ a, a < h.cells.length → (h.alloc v).1.load a = h.load a := by
  unfold Heap.alloc Heap.load
  refine ⟨rfl, by simp, by simp, fun a ha => ?_⟩
  exact List.getElem?_append_left ha

/-- C20: `ProgramStart.encode` leaves its receiver unchanged.  For every memory
and every receiver pointer `p` that holds a struct `v`, the call returns, the
cell of `p` holds `v` afterwards (every field, `PwmMode` included) and so does
every other cell allocated before the call; the device code is written to the
newly allocated copy only, and the packet is the serialization of that copy. -/
theorem encode_receiver_unchanged (h : Heap) (p : Nat) (v : ProgramStart)
    (hp : h.load p = some v) :
    ∃ h2 pk, ProgramStart.encodeOn h p = some (h2, pk) ∧
      h2.load p = some v ∧
      (∀ a, a < h.cells.length → h2.load a = h.load a) ∧
      h2.load h.cells.length =
        some { v with PwmMode := programTypeIndex v.BatteryType v.PwmMode } ∧
      v.encode = some pk := by
  have hlt : p < h.cells.length := Heap.load_lt h p v hp
  obtain ⟨ha2, hnew, hlen, hold⟩ := Heap.alloc_spec h v
  have h1p : (h.alloc v).1.load p = some v := by rw [hold p hlt, hp]
  have hne : (h.alloc v).2 ≠ p := by omega
  have hfresh : (h.alloc v).2 < (h.alloc v).1.cells.length := by omega
  refine ⟨(h.alloc v).1.store (h.alloc v).2
      { v with PwmMode := programTypeIndex v.BatteryType v.PwmMode }, _, ?_, ?_, ?_, ?_,
    ProgramStart_encode_eq v⟩
  · unfold ProgramStart.encodeOn
    simp only [hp, h1p, hnew, Heap.load_store_eq _ _ _ hfresh]
    have he := ProgramStart_encode_eq v
    unfold ProgramStart.encode at he
    simp only [he]
  · rw [Heap.load_store_ne _ _ _ _ hne, h1p]
  · intro a ha
    rw [Heap.load_store_ne _ _ _ _ (by omega), hold a ha]
  · rw [← ha2]
    exact Heap.load_store_eq _ _ _ hfresh

/-- Witness for C20: a memory that holds an unrelated request at address 0 and the
receiver, a NiMh Cycle request (device code 4, program type 7), at address 1. -/
theorem encode_receiver_unchanged_witness :
    ∃ h2 pk,
      ProgramStart.encodeOn
          ⟨[⟨LiPo, 3, Charge, 1000, 0, 0, 0, 0, 0, 0⟩,
            ⟨NiMh, 1, Cycle, 1000, 500, 1000, 4, 2, 3, 0⟩]⟩ 1 = some (h2, pk) ∧
        h2.load 1 = some ⟨NiMh, 1, Cycle, 1000, 500, 1000, 4, 2, 3, 0⟩ ∧
        h2.load 2 = some ⟨NiMh, 1, 4, 1000, 500, 1000, 4, 2, 3, 0⟩ ∧
        pk.buf[6]? = some 4 := by
  obtain ⟨h2, pk, he, hrecv, _, hcopy, hpk⟩ :=
    encode_receiver_unchanged
      ⟨[⟨LiPo, 3, Charge, 1000, 0, 0, 0, 0, 0, 0⟩,
        ⟨NiMh, 1, Cycle, 1000, 500, 1000, 4, 2, 3, 0⟩]⟩ 1
      ⟨NiMh, 1, Cycle, 1000, 500, 1000, 4, 2, 3, 0⟩ rfl
  refine ⟨h2, pk, he, hrecv, hcopy, ?_⟩
  rw [ProgramStart_encode_eq] at hpk
  rw [← Option.some.inj hpk]
  rfl

/-! ## Command line -/

/-- The six battery names of the command line. -/
theorem dischargeBattery_unknown (bt : String) (p : ProgramStart)
    (h : bt ∉ ["liio", "lipo", "life", "nimh", "nicd", "pb"]) :
    dischargeBattery bt p = (p, [.print ("Unknown battery type: \x27" ++ bt ++ "\x27\n")]) := by
  simp only [List.mem_cons, List.mem_singleton, List.not_mem_nil, or_false, not_or] at h
  obtain ⟨h1, h2, h3, h4, h5, h6⟩ := h
  simp [dischargeBattery, h1, h2, h3, h4, h5, h6]

/-- The function `batteryType`, used by the charge command, returns an error for
a battery name that is not one of the six, so that the charge command returns
before opening the device. -/
theorem batteryType_unknown (toLower : String → String) (flagBattery : String)
    (h : toLower flagBattery ∉ ["liio", "lipo", "life", "nimh", "nicd", "pb"]) :
    batteryType toLower (.ok flagBattery) =
      .error ("Unknown battery type: \x27" ++ toLower flagBattery ++ "\x27\n") := by
  simp only [List.mem_cons, List.mem_singleton, List.not_mem_nil, or_false, not_or] at h
  obtain ⟨h1, h2, h3, h4, h5, h6⟩ := h
  simp [batteryType, h1, h2, h3, h4, h5, h6]

/-- In the discharge command with valid current and cells, an unknown battery
name is reported and the run goes on: when the device opens, `dev.Start` is
called with the battery type left at its zero value `LiPo`. -/
theorem dischargeRun_unknown_battery (env : CliEnv) (flagBattery : String)
    (flagCurrent flagVoltage flagCells : Int) (flagTags : List String)
    (hb : env.toLower flagBattery ∉ ["liio", "lipo", "life", "nimh", "nicd", "pb"])
    (hc : 100 ≤ flagCurrent ∧ flagCurrent ≤ 2000) (hn : 1 ≤ flagCells ∧ flagCells ≤ 6)
    (ho : env.openErr = none) :
    CliStep.start ⟨LiPo, toByte flagCells, Discharge, 0, toUint16 flagCurrent,
        toUint16 flagVoltage, 0, 0, 0, 0⟩ ∈
      (dischargeRun env ⟨.ok flagBattery, .ok flagCurrent, .ok flagVoltage, .ok flagCells,
        .ok flagTags⟩).1 := by
  have h1 : ¬ (flagCurrent < 100 ∨ flagCurrent > 2000) := by omega
  have h2 : ¬ (flagCells < 1 ∨ flagCells > 6) := by omega
  simp only [dischargeRun, h1, h2, if_false, dischargeBattery_unknown _ _ hb, runProgram, ho]
  cases env.startErr _ <;> cases env.dbOpenErr <;> cases env.writeProgramErr <;>
    cases env.watchErr <;> simp

/-- C17 (at the failing input): the discharge command run with `--battery foo
--current 500 --voltage 3000 --cells 3` prints "Unknown battery type: 'foo'"
and then opens the device and calls `dev.Start` with a `ProgramStart` whose
battery type is `LiPo`: the default case of the switch has no `return`. -/
theorem discharge_unknown_battery_calls_start :
    dischargeRun cliEnvOk ⟨.ok "foo", .ok 500, .ok 3000, .ok 3, .ok []⟩ =
      ([.print "Unknown battery type: \x27foo\x27\n", .openDevice,
        .print "Starting discharge cycle..",
        .start ⟨LiPo, 3, Discharge, 0, 500, 3000, 0, 0, 0, 0⟩, .print "ok.\n", .openDatabase,
        .writeProgram ⟨LiPo, 3, Discharge, 0, 500, 3000, 0, 0, 0, 0⟩ [], .watch,
        .closeDatabase, .closeDevice], .returned) := by
  decide

/-- In the cycle command with a supported battery and all flags read, a failing
range check makes the run end in the panic of `err.Error()` on a nil `err`:
nothing is printed, the device is not opened and `dev.Start` is not called. -/
theorem cycleRun_check_failed (env : CliEnv) (flagBattery msg : String)
    (flagCycles flagCurrent flagVoltage flagDCurrent flagDVoltage : Int)
    (hb : env.toLower flagBattery = "nimh" ∨ env.toLower flagBattery = "nicd")
    (hc : cycleCheck flagCurrent flagDCurrent flagDVoltage flagCycles = some msg) :
    cycleRun env ⟨.ok flagBattery, .ok flagCycles, .ok flagCurrent, .ok flagVoltage,
      .ok flagDCurrent, .ok flagDVoltage⟩ = ([], .nilDereference) := by
  rcases hb with hb | hb <;> simp [cycleRun, hb, hc]

/-- C18 (at the failing input): the cycle command, run as `charge cycle
--battery nimh --cycles 3 --current 50 --voltage 4 --dcurrent 500 --dvoltage
1000`, sets
`checkError` (the current is below 100) and then panics in `err.Error()`, `err`
being the nil error of the last flag read: no message is printed and the run
does not return normally. -/
theorem cycle_out_of_range_panics :
    cycleCheck 50 500 1000 3 = some "\x27current\x27 flag must be >=100 and <= 6000" ∧
      cycleRun cliEnvOk ⟨.ok "nimh", .ok 3, .ok 50, .ok 4, .ok 500, .ok 1000⟩ =
        ([], .nilDereference) := by
  decide

end B6Max
